import Mathlib

/-!
Verification development for the abootimg-oxide Android boot-image header codec.

The Rust source is embedded shallowly:
* machine integers (`u8`/`u16`/`u32`/`u64`/`usize`) are modelled as `Nat`,
  with an explicit `% 2^w` exactly where the Rust code can wrap or truncate;
* byte buffers and byte sources are `List Nat` (each element a byte value);
* fallible reads return `Except BinError`.

Definition names follow `src/version.rs`, `src/lib.rs` and `src/vendor.rs`.
-/

/-! ## Model of `src/version.rs` -/

/-- Model of `OsVersion::new(a: u8, b: u8, c: u8)`:
`((a as u32) << 14) | ((b as u32) << 7) | c as u32`.
Arguments are `u8` values, so callers can only pass values below 256. -/
def OsVersion.new (a b c : Nat) : Nat :=
  (a <<< 14) ||| (b <<< 7) ||| c

/-- Model of `OsVersion::version_parts`:
`(x >> 14) as u8`, `((x >> 7) & 0x7f) as u8`, `(x & 0x7f) as u8`.
The `as u8` casts are the `% 256`. -/
def OsVersion.version_parts (x : Nat) : Nat × Nat × Nat :=
  ((x >>> 14) % 256, ((x >>> 7) &&& 0x7f) % 256, (x &&& 0x7f) % 256)

/-- Model of `impl fmt::Display for OsVersion`: renders `"{a}.{b}.{c}"`
from `version_parts`. -/
def OsVersion.display (x : Nat) : String :=
  toString ((x >>> 14) % 256) ++ "." ++ toString (((x >>> 7) &&& 0x7f) % 256)
    ++ "." ++ toString ((x &&& 0x7f) % 256)

/-- Model of `OsPatch::new(year: u16, month: u8)`: `((year - 2000) << 4) + month`,
computed in `u16`.  The caller precondition (spec invariant 6) is `year ≥ 2000`;
the final `% 2^16` is the `u16` wrap-around of the shift-and-add. -/
def OsPatch.new (year month : Nat) : Nat :=
  (((year - 2000) <<< 4) + month) % 2 ^ 16

/-- Model of `OsPatch::year`: `(p >> 4) + 2000` (no overflow: `p < 2^16`). -/
def OsPatch.year (p : Nat) : Nat :=
  (p >>> 4) + 2000

/-- Model of `OsPatch::month`: `(p & 0xf) as u8`; the cast is the identity on
values below 16. -/
def OsPatch.month (p : Nat) : Nat :=
  p &&& 0xf

/-- Zero-padded two-digit rendering, the `{:02}` format used for the month. -/
def twoDigits (n : Nat) : String :=
  if n < 10 then "0" ++ toString n else toString n

/-- Model of `impl fmt::Display for OsPatch`: renders `"{year}-{month:02}"`. -/
def OsPatch.display (p : Nat) : String :=
  toString (OsPatch.year p) ++ "-" ++ twoDigits (OsPatch.month p)

/-- Model of `OsVersionPatch::new`: `(version.0 << 11) + patch.0 as u32`.
The `u32` shift discards bits above bit 31 and the addition wraps, which is
together one final `% 2^32`. -/
def OsVersionPatch.new (v p : Nat) : Nat :=
  ((v <<< 11) + p) % 2 ^ 32

/-- Model of `OsVersionPatch::version`: `self.0 >> 11`. -/
def OsVersionPatch.version (x : Nat) : Nat :=
  x >>> 11

/-- Model of `OsVersionPatch::patch`: `(self.0 & 0x7ff) as u16`; the cast is
the identity on values below 2^11. -/
def OsVersionPatch.patch (x : Nat) : Nat :=
  x &&& 0x7ff

/-- Model of `impl fmt::Debug for OsVersionPatch`:
`"OsVersionPatch({version}, {patch})"`. -/
def OsVersionPatch.debugFmt (x : Nat) : String :=
  "OsVersionPatch(" ++ OsVersion.display (OsVersionPatch.version x) ++ ", "
    ++ OsPatch.display (OsVersionPatch.patch x) ++ ")"

/-! ## Arithmetic shape of the packed version word -/

/-- With all three components in `u8` range restricted to 7 bits, the packed
word is plain positional arithmetic: the three `|` have disjoint bit ranges. -/
theorem osversion_new_eq_arith (a b c : Nat) (ha : a ≤ 127) (hb : b ≤ 127)
    (hc : c ≤ 127) : OsVersion.new a b c = a * 2 ^ 14 + b * 2 ^ 7 + c := by
  have hc7 : c < 2 ^ 7 := by omega
  have hinner : 2 ^ 7 * b + c = 2 ^ 7 * b ||| c := Nat.mul_add_lt_is_or hc7 b
  have hbc : 2 ^ 7 * b + c < 2 ^ 14 := by omega
  have houter : 2 ^ 14 * a + (2 ^ 7 * b + c) = 2 ^ 14 * a ||| (2 ^ 7 * b + c) :=
    Nat.mul_add_lt_is_or hbc a
  unfold OsVersion.new
  rw [Nat.shiftLeft_eq, Nat.shiftLeft_eq, Nat.lor_assoc, Nat.mul_comm a,
    Nat.mul_comm b, ← hinner, ← houter]
  ring

/-- The packed patch word is plain arithmetic whenever the year offset fits in
7 bits, and then no `u16` wrap-around happens. -/
theorem ospatch_new_eq_arith (y m : Nat) (hy1 : 2000 ≤ y) (hy2 : y ≤ 2127)
    (hm : m ≤ 255) : OsPatch.new y m = (y - 2000) * 2 ^ 4 + m := by
  unfold OsPatch.new
  rw [Nat.shiftLeft_eq]
  exact Nat.mod_eq_of_lt (by omega)

/-- Mask by `0x7ff` is reduction mod `2^11`. -/
theorem and_0x7ff_eq_mod (x : Nat) : x &&& 0x7ff = x % 2 ^ 11 := by
  have h : (0x7ff : Nat) = 2 ^ 11 - 1 := by norm_num
  rw [h, Nat.and_pow_two_sub_one_eq_mod]

/-- Mask by `0x7f` is reduction mod `2^7`. -/
theorem and_0x7f_eq_mod (x : Nat) : x &&& 0x7f = x % 2 ^ 7 := by
  have h : (0x7f : Nat) = 2 ^ 7 - 1 := by norm_num
  rw [h, Nat.and_pow_two_sub_one_eq_mod]

/-! ## Claim C2 -/

/-- C2 as frozen is false: the spec allows `year` up to `2000 + 4095`, but
`OsVersionPatch::patch` keeps only the low 11 bits, so a year offset of 128 or
more (here `year = 2128`) is truncated and even corrupts the version part. -/
theorem c2_counterexample :
    ¬ (OsVersionPatch.version
          (OsVersionPatch.new (OsVersion.new 0 0 0) (OsPatch.new 2128 1))
        = OsVersion.new 0 0 0
      ∧ OsVersionPatch.patch
          (OsVersionPatch.new (OsVersion.new 0 0 0) (OsPatch.new 2128 1))
        = OsPatch.new 2128 1) := by
  decide

/-- C2 amended: the version/patch round-trip holds for
`(major, minor, patch) ∈ [0,127]^3`, `month ∈ [1,12]` and
`year ∈ [2000, 2127]` — the year offset must fit the 7 bits that the packed
11-bit patch word reserves for it, not 12 bits. -/
theorem c2_version_patch_roundtrip (a b c y m : Nat)
    (ha : a ≤ 127) (hb : b ≤ 127) (hc : c ≤ 127)
    (hy1 : 2000 ≤ y) (hy2 : y ≤ 2127) (hm1 : 1 ≤ m) (hm2 : m ≤ 12) :
    OsVersionPatch.version
        (OsVersionPatch.new (OsVersion.new a b c) (OsPatch.new y m))
      = OsVersion.new a b c
    ∧ OsVersionPatch.patch
        (OsVersionPatch.new (OsVersion.new a b c) (OsPatch.new y m))
      = OsPatch.new y m := by
  have hv : OsVersion.new a b c = a * 2 ^ 14 + b * 2 ^ 7 + c :=
    osversion_new_eq_arith a b c ha hb hc
  have hp : OsPatch.new y m = (y - 2000) * 2 ^ 4 + m :=
    ospatch_new_eq_arith y m hy1 (by omega) (by omega)
  have hplt : OsPatch.new y m < 2 ^ 11 := by omega
  have hvlt : OsVersion.new a b c < 2 ^ 21 := by omega
  have hnew : OsVersionPatch.new (OsVersion.new a b c) (OsPatch.new y m)
      = OsVersion.new a b c * 2 ^ 11 + OsPatch.new y m := by
    unfold OsVersionPatch.new
    rw [Nat.shiftLeft_eq]
    exact Nat.mod_eq_of_lt (by omega)
  constructor
  · unfold OsVersionPatch.version
    rw [hnew, Nat.shiftRight_eq_div_pow]
    omega
  · unfold OsVersionPatch.patch
    rw [hnew, and_0x7ff_eq_mod]
    omega

/-- Witness for C2 at the repository's own test vector `12.0.0`, `2024-06`. -/
theorem c2_version_patch_roundtrip_witness :
    OsVersionPatch.version
        (OsVersionPatch.new (OsVersion.new 12 0 0) (OsPatch.new 2024 6))
      = OsVersion.new 12 0 0
    ∧ OsVersionPatch.patch
        (OsVersionPatch.new (OsVersion.new 12 0 0) (OsPatch.new 2024 6))
      = OsPatch.new 2024 6 :=
  c2_version_patch_roundtrip 12 0 0 2024 6 (by decide) (by decide) (by decide)
    (by decide) (by decide) (by decide) (by decide)

/-! ## Claim C3 -/

/-- C3 as frozen is false: `OsVersion::new` does not mask its arguments to
7 bits.  At `(0, 0, 128)` the claim predicts stored components
`(0 % 128, 0 % 128, 128 % 128) = (0, 0, 0)`, but bit 7 of the third argument
bleeds into the middle component: the stored components are `(0, 1, 0)`. -/
theorem c3_counterexample :
    ¬ (OsVersion.version_parts (OsVersion.new 0 0 128)
        = (0 % 128, 0 % 128, 128 % 128)) := by
  decide

/-- C3 amended: `OsVersion::new` performs no masking.  When each argument is
at most 127 the three stored components equal the arguments exactly (hence lie
in `[0,127]`); arguments above 127 overflow into the neighbouring component. -/
theorem c3_new_version_parts (a b c : Nat) (ha : a ≤ 127) (hb : b ≤ 127)
    (hc : c ≤ 127) : OsVersion.version_parts (OsVersion.new a b c) = (a, b, c) := by
  have hv : OsVersion.new a b c = a * 2 ^ 14 + b * 2 ^ 7 + c :=
    osversion_new_eq_arith a b c ha hb hc
  unfold OsVersion.version_parts
  rw [hv]
  rw [Nat.shiftRight_eq_div_pow, Nat.shiftRight_eq_div_pow, and_0x7f_eq_mod,
    and_0x7f_eq_mod]
  simp only [Prod.mk.injEq]
  refine ⟨by omega, by omega, by omega⟩

/-- Witness for C3's amended theorem at `(12, 3, 4)`. -/
theorem c3_new_version_parts_witness :
    OsVersion.version_parts (OsVersion.new 12 3 4) = (12, 3, 4) :=
  c3_new_version_parts 12 3 4 (by decide) (by decide) (by decide)

/-! ## Claim C9 -/

/-- C9: the concrete word `OsVersionPatch(402653574)` decodes to version
`12.0.0` and patch `2024-06`, and the debug rendering is exactly
`"OsVersionPatch(12.0.0, 2024-06)"`. -/
theorem c9_known_vector :
    OsVersion.display (OsVersionPatch.version 402653574) = "12.0.0"
    ∧ OsPatch.display (OsVersionPatch.patch 402653574) = "2024-06"
    ∧ OsVersionPatch.debugFmt 402653574 = "OsVersionPatch(12.0.0, 2024-06)" := by
  refine ⟨rfl, rfl, rfl⟩

/-! ## Model of the header data (src/lib.rs) -/

/-- Model of `enum HeaderV0Versioned`: the version-specific trailer of boot
image headers v0-v2.  The `header_size` wire field is `#[br(temp)]` /
`#[bw(calc = ...)]` in the source and therefore not part of the in-memory
value. -/
inductive HeaderV0Versioned where
  | V0 : HeaderV0Versioned
  | V1 (recovery_dtbo_size recovery_dtbo_addr : Nat) : HeaderV0Versioned
  | V2 (recovery_dtbo_size recovery_dtbo_addr dtb_size dtb_addr : Nat) :
      HeaderV0Versioned
deriving DecidableEq

/-- Model of `struct HeaderV0` (boot image header versions 0, 1, 2).
`u32` fields are `Nat`; the byte-array fields are byte lists whose lengths
(16, 512, 32, 1024) are imposed by the well-formedness predicate below. -/
structure HeaderV0 where
  kernel_size : Nat
  kernel_addr : Nat
  ramdisk_size : Nat
  ramdisk_addr : Nat
  second_bootloader_size : Nat
  second_bootloader_addr : Nat
  tags_addr : Nat
  page_size : Nat
  osversionpatch : Nat
  board_name : List Nat
  cmdline_part_1 : List Nat
  hash_digest : List Nat
  cmdline_part_2 : List Nat
  versioned : HeaderV0Versioned
deriving DecidableEq

/-- Model of `HeaderV0::get_padding`:
`(page_size - (size & (page_size - 1))) & (page_size - 1)` in `usize`
arithmetic.  The source comments that `page_size` must be a power of two; the
subtraction then never underflows, so `Nat` subtraction is exact here. -/
def HeaderV0.get_padding (h : HeaderV0) (size : Nat) : Nat :=
  (h.page_size - (size &&& (h.page_size - 1))) &&& (h.page_size - 1)

/-- Model of `HeaderV0::header_version`: recomputed from the variant tag. -/
def HeaderV0.header_version (h : HeaderV0) : Nat :=
  match h.versioned with
  | .V0 => 0
  | .V1 _ _ => 1
  | .V2 _ _ _ _ => 2

/-- Model of `HeaderV0::kernel_position`: `1660 + get_padding(1660)`. -/
def HeaderV0.kernel_position (h : HeaderV0) : Nat :=
  1660 + h.get_padding 1660

/-- Model of `HeaderV0::ramdisk_position`. -/
def HeaderV0.ramdisk_position (h : HeaderV0) : Nat :=
  h.kernel_position + h.kernel_size + h.get_padding h.kernel_size

/-- Model of `HeaderV0::second_bootloader_position`. -/
def HeaderV0.second_bootloader_position (h : HeaderV0) : Nat :=
  h.ramdisk_position + h.ramdisk_size + h.get_padding h.ramdisk_size

/-- Model of `HeaderV0::recovery_dtbo_position`. -/
def HeaderV0.recovery_dtbo_position (h : HeaderV0) : Nat :=
  h.second_bootloader_position + h.second_bootloader_size
    + h.get_padding h.second_bootloader_size

/-- Model of `HeaderV0::dtb_position`: `None` at version 0, and
`second_bootloader_position() + recovery_dtbo_size + pad(recovery_dtbo_size)`
for the V1 and V2 variants alike. -/
def HeaderV0.dtb_position (h : HeaderV0) : Option Nat :=
  match h.versioned with
  | .V0 => none
  | .V1 recovery_dtbo_size _ =>
      some (h.second_bootloader_position + recovery_dtbo_size
        + h.get_padding recovery_dtbo_size)
  | .V2 recovery_dtbo_size _ _ _ =>
      some (h.second_bootloader_position + recovery_dtbo_size
        + h.get_padding recovery_dtbo_size)

/-- Model of `struct HeaderV3` (boot image header versions 3 and 4).
The wire fields `header_size` and `header_version` are temp/calc fields;
the version is inferred from the presence of `v4_signature_size`. -/
structure HeaderV3 where
  kernel_size : Nat
  ramdisk_size : Nat
  osversionpatch : Nat
  cmdline : List Nat
  v4_signature_size : Option Nat
deriving DecidableEq

/-- Model of `HeaderV3::PAGE_SIZE`. -/
def HeaderV3.PAGE_SIZE : Nat := 4096

/-- Model of `HeaderV3::header_version`: 4 iff `v4_signature_size` is present. -/
def HeaderV3.header_version (h : HeaderV3) : Nat :=
  match h.v4_signature_size with
  | some _ => 4
  | none => 3

/-- Model of `HeaderV3::header_size`: 1584 iff `v4_signature_size` is present,
1580 otherwise. -/
def HeaderV3.header_size (h : HeaderV3) : Nat :=
  match h.v4_signature_size with
  | some _ => 1584
  | none => 1580

/-- Model of `HeaderV3::get_padding` (the page size is the constant 4096). -/
def HeaderV3.get_padding (size : Nat) : Nat :=
  (HeaderV3.PAGE_SIZE - (size &&& (HeaderV3.PAGE_SIZE - 1)))
    &&& (HeaderV3.PAGE_SIZE - 1)

/-- Model of `HeaderV3::kernel_position`: the constant page size 4096. -/
def HeaderV3.kernel_position : Nat := HeaderV3.PAGE_SIZE

/-- Model of `HeaderV3::ramdisk_position`. -/
def HeaderV3.ramdisk_position (h : HeaderV3) : Nat :=
  HeaderV3.kernel_position + h.kernel_size + HeaderV3.get_padding h.kernel_size

/-- Model of `HeaderV3::bootsig_position`. -/
def HeaderV3.bootsig_position (h : HeaderV3) : Nat :=
  h.ramdisk_position + h.ramdisk_size + HeaderV3.get_padding h.ramdisk_size

/-- Model of `struct VendorHeaderV4`: the v4-specific vendor trailer. -/
structure VendorHeaderV4 where
  vendor_ramdisk_table_size : Nat
  vendor_ramdisk_table_entry_num : Nat
  vendor_ramdisk_table_entry_size : Nat
  bootconfig_size : Nat
deriving DecidableEq

/-- Model of `struct VendorHeader` (vendor boot image header v3 and v4).
The wire fields `header_version` and `header_size` are temp/calc fields. -/
structure VendorHeader where
  page_size : Nat
  kernel_addr : Nat
  ramdisk_addr : Nat
  vendor_ramdisk_size : Nat
  cmdline : List Nat
  tags_addr : Nat
  board_name : List Nat
  dtb_size : Nat
  dtb_addr : Nat
  v4 : Option VendorHeaderV4
deriving DecidableEq

/-- Model of `VendorHeader::header_version`. -/
def VendorHeader.header_version (v : VendorHeader) : Nat :=
  match v.v4 with
  | some _ => 4
  | none => 3

/-- Model of `VendorHeader::header_size`: 2128 iff the v4 trailer is present,
2112 otherwise. -/
def VendorHeader.header_size (v : VendorHeader) : Nat :=
  match v.v4 with
  | some _ => 2128
  | none => 2112

/-! ## Padding arithmetic -/

/-- With a power-of-two page size the two bit masks in `get_padding` are
reductions mod the page size. -/
theorem headerV0_get_padding_eq (h : HeaderV0) (k s : Nat)
    (hp : h.page_size = 2 ^ k) :
    h.get_padding s = (2 ^ k - s % 2 ^ k) % 2 ^ k := by
  unfold HeaderV0.get_padding
  rw [hp, Nat.and_pow_two_sub_one_eq_mod, Nat.and_pow_two_sub_one_eq_mod]

/-- The static v3 padding (page size `4096 = 2^12`) in closed mod form. -/
theorem headerV3_get_padding_eq (s : Nat) :
    HeaderV3.get_padding s = (4096 - s % 4096) % 4096 := by
  unfold HeaderV3.get_padding HeaderV3.PAGE_SIZE
  have h1 : (4095 : Nat) = 2 ^ 12 - 1 := by norm_num
  have h2 : (4096 : Nat) = 2 ^ 12 := by norm_num
  rw [show (4096 : Nat) - 1 = 4095 from rfl, h1,
    Nat.and_pow_two_sub_one_eq_mod, Nat.and_pow_two_sub_one_eq_mod, h2]

/-- Rounding a size up by its padding lands on a multiple of the modulus. -/
theorem add_pad_dvd (m s : Nat) (hm : 0 < m) : m ∣ s + (m - s % m) % m := by
  rcases Nat.eq_zero_or_pos (s % m) with h | h
  · rw [h, Nat.sub_zero, Nat.mod_self, Nat.add_zero]
    exact Nat.dvd_of_mod_eq_zero h
  · have hlt : s % m < m := Nat.mod_lt _ hm
    rw [Nat.mod_eq_of_lt (by omega)]
    refine ⟨s / m + 1, ?_⟩
    have hd : m * (s / m) + s % m = s := Nat.div_add_mod s m
    have hsucc : m * (s / m + 1) = m * (s / m) + m := by ring
    omega

/-- The padding itself is strictly below the modulus. -/
theorem pad_lt (m s : Nat) (hm : 0 < m) : (m - s % m) % m < m :=
  Nat.mod_lt _ hm

/-! ## Claim C4 (layout monotonicity) -/

/-- Concrete V2 header exercising the `dtb_position` layout slip: page size
4096, a 4096-byte second-stage bootloader, and an empty recovery DTBO. -/
def c4Header : HeaderV0 :=
  { kernel_size := 0, kernel_addr := 0, ramdisk_size := 0, ramdisk_addr := 0,
    second_bootloader_size := 4096, second_bootloader_addr := 0, tags_addr := 0,
    page_size := 4096, osversionpatch := 0,
    board_name := List.replicate 16 0, cmdline_part_1 := List.replicate 512 0,
    hash_digest := List.replicate 32 0, cmdline_part_2 := List.replicate 1024 0,
    versioned := .V2 0 0 0 0 }

/-- C4 fails on the code: `dtb_position` is computed from
`second_bootloader_position` without adding the second bootloader's own
(padded) size, so with a non-empty second bootloader the DTB position falls
strictly below `recovery_dtbo_position`, contradicting the monotone layout of
the source's own section diagram. -/
theorem c4_dtb_position_not_monotone :
    ∃ p, c4Header.dtb_position = some p ∧ p < c4Header.recovery_dtbo_position := by
  refine ⟨4096, by decide, by decide⟩

/-! ## Claim C5 (dtb_position shape) -/

/-- C5 amended: `dtb_position` is `None` exactly for the V0 variant; for both
the V1 and the V2 variants it is
`second_bootloader_position() + recovery_dtbo_size + pad(recovery_dtbo_size)`. -/
theorem c5_dtb_position (h : HeaderV0) :
    (h.versioned = .V0 → h.dtb_position = none)
    ∧ (∀ r a, h.versioned = .V1 r a →
        h.dtb_position
          = some (h.second_bootloader_position + r + h.get_padding r))
    ∧ (∀ r a d da, h.versioned = .V2 r a d da →
        h.dtb_position
          = some (h.second_bootloader_position + r + h.get_padding r)) := by
  refine ⟨fun hv => ?_, fun r a hv => ?_, fun r a d da hv => ?_⟩ <;>
    simp [HeaderV0.dtb_position, hv]

/-- Concrete V1 header on which `dtb_position` is defined. -/
def c5Header : HeaderV0 :=
  { kernel_size := 0, kernel_addr := 0, ramdisk_size := 0, ramdisk_addr := 0,
    second_bootloader_size := 0, second_bootloader_addr := 0, tags_addr := 0,
    page_size := 2048, osversionpatch := 0,
    board_name := List.replicate 16 0, cmdline_part_1 := List.replicate 512 0,
    hash_digest := List.replicate 32 0, cmdline_part_2 := List.replicate 1024 0,
    versioned := .V1 0 0 }

/-- C5 as frozen is false: on a V1 header `dtb_position` is not absent. -/
theorem c5_counterexample : c5Header.dtb_position ≠ none := by
  decide

/-- Witness for the amended C5 at the concrete V1 header. -/
theorem c5_dtb_position_witness :
    c5Header.dtb_position
      = some (c5Header.second_bootloader_position + 0 + c5Header.get_padding 0) :=
  (c5_dtb_position c5Header).2.1 0 0 rfl

/-! ## Claim C7 (padding invariant) -/

/-- C7: with a power-of-two page size every computed section position is
page-aligned and exceeds the end of the preceding section (previous position
plus previous section size; 1660 — the header envelope — for the kernel) by
strictly less than one page.  For the V3 family the page size is the constant
4096. -/
theorem c7_padding_invariant :
    (∀ (h : HeaderV0) (k : Nat), h.page_size = 2 ^ k →
      (h.page_size ∣ h.kernel_position
        ∧ h.kernel_position - 1660 < h.page_size)
      ∧ (h.page_size ∣ h.ramdisk_position
        ∧ h.ramdisk_position - (h.kernel_position + h.kernel_size) < h.page_size)
      ∧ (h.page_size ∣ h.second_bootloader_position
        ∧ h.second_bootloader_position - (h.ramdisk_position + h.ramdisk_size)
            < h.page_size)
      ∧ (h.page_size ∣ h.recovery_dtbo_position
        ∧ h.recovery_dtbo_position
            - (h.second_bootloader_position + h.second_bootloader_size)
            < h.page_size))
    ∧ (∀ h : HeaderV3,
      (4096 ∣ h.ramdisk_position
        ∧ h.ramdisk_position - (HeaderV3.kernel_position + h.kernel_size) < 4096)
      ∧ (4096 ∣ h.bootsig_position
        ∧ h.bootsig_position - (h.ramdisk_position + h.ramdisk_size) < 4096)) := by
  constructor
  · intro h k hp
    have hpos : 0 < h.page_size := by rw [hp]; exact Nat.pos_pow_of_pos _ (by omega)
    have hpad : ∀ s, h.get_padding s = (2 ^ k - s % 2 ^ k) % 2 ^ k :=
      fun s => headerV0_get_padding_eq h k s hp
    have hdvd : ∀ s, h.page_size ∣ s + h.get_padding s := by
      intro s
      rw [hpad s, hp]
      exact add_pad_dvd (2 ^ k) s (by rw [← hp]; exact hpos)
    have hlt : ∀ s, h.get_padding s < h.page_size := by
      intro s
      rw [hpad s, hp]
      exact pad_lt (2 ^ k) s (by rw [← hp]; exact hpos)
    have hk : h.page_size ∣ h.kernel_position := hdvd 1660
    have hr : h.page_size ∣ h.ramdisk_position := by
      unfold HeaderV0.ramdisk_position
      rw [Nat.add_assoc]
      exact Nat.dvd_add hk (hdvd h.kernel_size)
    have hs : h.page_size ∣ h.second_bootloader_position := by
      unfold HeaderV0.second_bootloader_position
      rw [Nat.add_assoc]
      exact Nat.dvd_add hr (hdvd h.ramdisk_size)
    have hrd : h.page_size ∣ h.recovery_dtbo_position := by
      unfold HeaderV0.recovery_dtbo_position
      rw [Nat.add_assoc]
      exact Nat.dvd_add hs (hdvd h.second_bootloader_size)
    refine ⟨⟨hk, ?_⟩, ⟨hr, ?_⟩, ⟨hs, ?_⟩, ⟨hrd, ?_⟩⟩
    · have := hlt 1660
      unfold HeaderV0.kernel_position
      omega
    · have := hlt h.kernel_size
      unfold HeaderV0.ramdisk_position
      omega
    · have := hlt h.ramdisk_size
      unfold HeaderV0.second_bootloader_position
      omega
    · have := hlt h.second_bootloader_size
      unfold HeaderV0.recovery_dtbo_position
      omega
  · intro h
    have hdvd : ∀ s, (4096 : Nat) ∣ s + HeaderV3.get_padding s := by
      intro s
      rw [headerV3_get_padding_eq]
      exact add_pad_dvd 4096 s (by omega)
    have hlt : ∀ s, HeaderV3.get_padding s < 4096 := by
      intro s
      rw [headerV3_get_padding_eq]
      exact pad_lt 4096 s (by omega)
    have hkp : (4096 : Nat) ∣ HeaderV3.kernel_position := ⟨1, rfl⟩
    have hr : (4096 : Nat) ∣ h.ramdisk_position := by
      unfold HeaderV3.ramdisk_position
      rw [Nat.add_assoc]
      exact Nat.dvd_add hkp (hdvd h.kernel_size)
    have hb : (4096 : Nat) ∣ h.bootsig_position := by
      unfold HeaderV3.bootsig_position
      rw [Nat.add_assoc]
      exact Nat.dvd_add hr (hdvd h.ramdisk_size)
    refine ⟨⟨hr, ?_⟩, ⟨hb, ?_⟩⟩
    · have := hlt h.kernel_size
      unfold HeaderV3.ramdisk_position
      omega
    · have := hlt h.ramdisk_size
      unfold HeaderV3.bootsig_position
      omega

/-- Witness for C7 at a concrete V0 header with page size 2048. -/
theorem c7_padding_invariant_witness :
    c5Header.page_size ∣ c5Header.kernel_position
    ∧ c5Header.kernel_position - 1660 < c5Header.page_size :=
  ((c7_padding_invariant.1 c5Header 11 rfl).1)

/-! ## Byte-level wire format -/

/-- Little-endian byte encoding of a `u32` value. -/
def u32le (x : Nat) : List Nat :=
  [x % 256, x / 256 % 256, x / 65536 % 256, x / 16777216 % 256]

/-- Little-endian byte encoding of a `u64` value. -/
def u64le (x : Nat) : List Nat :=
  [x % 256, x / 256 % 256, x / 65536 % 256, x / 16777216 % 256,
   x / 4294967296 % 256, x / 1099511627776 % 256,
   x / 281474976710656 % 256, x / 72057594037927936 % 256]

/-- Little-endian decoding of a byte list. -/
def leDecode : List Nat → Nat
  | [] => 0
  | b :: rest => b + 256 * leDecode rest

/-- The little-endian `u32` read at byte offset `off` of a byte sequence. -/
def readU32 (bs : List Nat) (off : Nat) : Nat :=
  leDecode ((bs.drop off).take 4)

/-- The 8 magic bytes `b"ANDROID!"`. -/
def magicBoot : List Nat := [0x41, 0x4e, 0x44, 0x52, 0x4f, 0x49, 0x44, 0x21]

/-- The 8 magic bytes `b"VNDRBOOT"`. -/
def magicVendor : List Nat := [0x56, 0x4e, 0x44, 0x52, 0x42, 0x4f, 0x4f, 0x54]

/-- A byte list of the given length whose elements are byte values. -/
def bytesWf (bs : List Nat) (n : Nat) : Prop :=
  bs.length = n ∧ ∀ b ∈ bs, b < 256

/-- Field bounds of a well-formed trailer value (`u32`/`u64` ranges). -/
def HeaderV0Versioned.Wf : HeaderV0Versioned → Prop
  | .V0 => True
  | .V1 rds rda => rds < 2 ^ 32 ∧ rda < 2 ^ 64
  | .V2 rds rda ds da => rds < 2 ^ 32 ∧ rda < 2 ^ 64 ∧ ds < 2 ^ 32 ∧ da < 2 ^ 64

/-- Field bounds a `HeaderV0` value carries in Rust by typing: `u32` fields
below `2^32` and byte arrays of the declared widths. -/
def HeaderV0.Wf (h : HeaderV0) : Prop :=
  h.kernel_size < 2 ^ 32 ∧ h.kernel_addr < 2 ^ 32 ∧ h.ramdisk_size < 2 ^ 32
    ∧ h.ramdisk_addr < 2 ^ 32 ∧ h.second_bootloader_size < 2 ^ 32
    ∧ h.second_bootloader_addr < 2 ^ 32 ∧ h.tags_addr < 2 ^ 32
    ∧ h.page_size < 2 ^ 32 ∧ h.osversionpatch < 2 ^ 32
    ∧ bytesWf h.board_name 16 ∧ bytesWf h.cmdline_part_1 512
    ∧ bytesWf h.hash_digest 32 ∧ bytesWf h.cmdline_part_2 1024
    ∧ h.versioned.Wf

/-- Bound for an optional `u32` field. -/
def optU32Wf : Option Nat → Prop
  | none => True
  | some s => s < 2 ^ 32

/-- Field bounds a `HeaderV3` value carries in Rust by typing. -/
def HeaderV3.Wf (h : HeaderV3) : Prop :=
  h.kernel_size < 2 ^ 32 ∧ h.ramdisk_size < 2 ^ 32 ∧ h.osversionpatch < 2 ^ 32
    ∧ bytesWf h.cmdline 1536 ∧ optU32Wf h.v4_signature_size

/-- Field bounds of the optional v4 vendor trailer. -/
def optVendorV4Wf : Option VendorHeaderV4 → Prop
  | none => True
  | some t => t.vendor_ramdisk_table_size < 2 ^ 32
      ∧ t.vendor_ramdisk_table_entry_num < 2 ^ 32
      ∧ t.vendor_ramdisk_table_entry_size < 2 ^ 32
      ∧ t.bootconfig_size < 2 ^ 32

/-- Field bounds a `VendorHeader` value carries in Rust by typing. -/
def VendorHeader.Wf (v : VendorHeader) : Prop :=
  v.page_size < 2 ^ 32 ∧ v.kernel_addr < 2 ^ 32 ∧ v.ramdisk_addr < 2 ^ 32
    ∧ v.vendor_ramdisk_size < 2 ^ 32 ∧ bytesWf v.cmdline 2048
    ∧ v.tags_addr < 2 ^ 32 ∧ bytesWf v.board_name 16 ∧ v.dtb_size < 2 ^ 32
    ∧ v.dtb_addr < 2 ^ 64 ∧ optVendorV4Wf v.v4

/-- Model of the `BinWrite` output for `HeaderV0Versioned`: the `header_size`
slot is `#[bw(calc = 1648)]` resp. `#[bw(calc = 1660)]`, a constant recomputed
at serialization time. -/
def HeaderV0Versioned.write : HeaderV0Versioned → List Nat
  | .V0 => []
  | .V1 rds rda => u32le rds ++ u64le rda ++ u32le 1648
  | .V2 rds rda ds da =>
      u32le rds ++ u64le rda ++ u32le 1660 ++ u32le ds ++ u64le da

/-- Model of the `BinWrite` output for `HeaderV0` (little-endian, magic
`b"ANDROID!"`); `header_version` is `#[bw(calc = self.header_version())]`. -/
def HeaderV0.write (h : HeaderV0) : List Nat :=
  magicBoot ++ u32le h.kernel_size ++ u32le h.kernel_addr
    ++ u32le h.ramdisk_size ++ u32le h.ramdisk_addr
    ++ u32le h.second_bootloader_size ++ u32le h.second_bootloader_addr
    ++ u32le h.tags_addr ++ u32le h.page_size ++ u32le h.header_version
    ++ u32le h.osversionpatch ++ h.board_name ++ h.cmdline_part_1
    ++ h.hash_digest ++ h.cmdline_part_2 ++ h.versioned.write

/-- Model of the `BinWrite` output for `HeaderV3`: `header_size` and
`header_version` are calc fields and `#[brw(pad_before = 16)]` emits 16 zero
bytes; the v4 signature size is written only when present. -/
def HeaderV3.write (h : HeaderV3) : List Nat :=
  magicBoot ++ u32le h.kernel_size ++ u32le h.ramdisk_size
    ++ u32le h.osversionpatch ++ u32le h.header_size ++ List.replicate 16 0
    ++ u32le h.header_version ++ h.cmdline
    ++ (match h.v4_signature_size with
        | some s => u32le s
        | none => [])

/-- Model of the `BinWrite` output for `VendorHeader` (little-endian wire
format, magic `b"VNDRBOOT"`); `header_version` and `header_size` are calc
fields and the v4 trailer is written only when present. -/
def VendorHeader.write (v : VendorHeader) : List Nat :=
  magicVendor ++ u32le v.header_version ++ u32le v.page_size
    ++ u32le v.kernel_addr ++ u32le v.ramdisk_addr
    ++ u32le v.vendor_ramdisk_size ++ v.cmdline ++ u32le v.tags_addr
    ++ v.board_name ++ u32le v.header_size ++ u32le v.dtb_size
    ++ u64le v.dtb_addr
    ++ (match v.v4 with
        | some t => u32le t.vendor_ramdisk_table_size
            ++ u32le t.vendor_ramdisk_table_entry_num
            ++ u32le t.vendor_ramdisk_table_entry_size
            ++ u32le t.bootconfig_size
        | none => [])

/-! ## Reading a `u32` out of a serialized header -/

/-- Skipping a leading chunk of known length shifts the read offset. -/
theorem readU32_skip (chunk rest : List Nat) (k i : Nat) (hk : chunk.length = k) :
    readU32 (chunk ++ rest) (k + i) = readU32 rest i := by
  unfold readU32
  rw [← hk, List.drop_append]

/-- Little-endian decode inverts the `u32` encode. -/
theorem leDecode_u32le (x : Nat) (hx : x < 2 ^ 32) : leDecode (u32le x) = x := by
  simp only [u32le, leDecode]
  omega

/-- Reading at offset 0 over an encoded `u32` recovers the value. -/
theorem readU32_u32le_append (x : Nat) (hx : x < 2 ^ 32) (post : List Nat) :
    readU32 (u32le x ++ post) 0 = x := by
  unfold readU32
  rw [List.drop_zero, List.take_append_of_le_length (by simp [u32le]),
    List.take_of_length_le (by simp [u32le])]
  exact leDecode_u32le x hx

/-- Reading at offset 0 of a bare encoded `u32` recovers the value. -/
theorem readU32_u32le (x : Nat) (hx : x < 2 ^ 32) : readU32 (u32le x) 0 = x := by
  rw [← List.append_nil (u32le x)]
  exact readU32_u32le_append x hx []

/-- Reads beyond the fixed 1632-byte prefix of a serialized `HeaderV0` land in
the serialized trailer. -/
theorem HeaderV0.readU32_write (h : HeaderV0) (hb : h.board_name.length = 16)
    (h1 : h.cmdline_part_1.length = 512) (hh : h.hash_digest.length = 32)
    (h2 : h.cmdline_part_2.length = 1024) (i : Nat) :
    readU32 h.write (1632 + i) = readU32 h.versioned.write i := by
  unfold HeaderV0.write
  simp only [List.append_assoc]
  rw [(by ring : 1632 + i
      = 8 + (4 + (4 + (4 + (4 + (4 + (4 + (4 + (4 + (4 + (4 + (16 + (512
        + (32 + (1024 + i))))))))))))))),
    readU32_skip magicBoot _ 8 _ rfl,
    readU32_skip (u32le h.kernel_size) _ 4 _ rfl,
    readU32_skip (u32le h.kernel_addr) _ 4 _ rfl,
    readU32_skip (u32le h.ramdisk_size) _ 4 _ rfl,
    readU32_skip (u32le h.ramdisk_addr) _ 4 _ rfl,
    readU32_skip (u32le h.second_bootloader_size) _ 4 _ rfl,
    readU32_skip (u32le h.second_bootloader_addr) _ 4 _ rfl,
    readU32_skip (u32le h.tags_addr) _ 4 _ rfl,
    readU32_skip (u32le h.page_size) _ 4 _ rfl,
    readU32_skip (u32le h.header_version) _ 4 _ rfl,
    readU32_skip (u32le h.osversionpatch) _ 4 _ rfl,
    readU32_skip h.board_name _ 16 _ hb,
    readU32_skip h.cmdline_part_1 _ 512 _ h1,
    readU32_skip h.hash_digest _ 32 _ hh,
    readU32_skip h.cmdline_part_2 _ 1024 _ h2]

/-- The `u32` at offset 20 of a serialized `HeaderV3` is its recomputed
`header_size`. -/
theorem HeaderV3.readU32_write_20 (h : HeaderV3) :
    readU32 h.write 20 = h.header_size := by
  unfold HeaderV3.write
  simp only [List.append_assoc]
  rw [(by norm_num : (20 : Nat) = 8 + (4 + (4 + (4 + 0)))),
    readU32_skip magicBoot _ 8 _ rfl,
    readU32_skip (u32le h.kernel_size) _ 4 _ rfl,
    readU32_skip (u32le h.ramdisk_size) _ 4 _ rfl,
    readU32_skip (u32le h.osversionpatch) _ 4 _ rfl]
  exact readU32_u32le_append _
    (by cases hv : h.v4_signature_size <;> norm_num [HeaderV3.header_size, hv]) _

/-- The `u32` at offset 2096 of a serialized `VendorHeader` is its recomputed
`header_size`. -/
theorem VendorHeader.readU32_write_2096 (v : VendorHeader)
    (hc : v.cmdline.length = 2048) (hb : v.board_name.length = 16) :
    readU32 v.write 2096 = v.header_size := by
  unfold VendorHeader.write
  simp only [List.append_assoc]
  rw [(by norm_num : (2096 : Nat)
      = 8 + (4 + (4 + (4 + (4 + (4 + (2048 + (4 + (16 + 0))))))))),
    readU32_skip magicVendor _ 8 _ rfl,
    readU32_skip (u32le v.header_version) _ 4 _ rfl,
    readU32_skip (u32le v.page_size) _ 4 _ rfl,
    readU32_skip (u32le v.kernel_addr) _ 4 _ rfl,
    readU32_skip (u32le v.ramdisk_addr) _ 4 _ rfl,
    readU32_skip (u32le v.vendor_ramdisk_size) _ 4 _ rfl,
    readU32_skip v.cmdline _ 2048 _ hc,
    readU32_skip (u32le v.tags_addr) _ 4 _ rfl,
    readU32_skip v.board_name _ 16 _ hb]
  exact readU32_u32le_append _
    (by cases hv : v.v4 <;> norm_num [VendorHeader.header_size, hv]) _

/-! ## Claim C6 (header_size constants) -/

/-- C6: the serialized `header_size` slot always holds the constant recomputed
from the variant — 1648 (v0-family V1, at offset 1644), 1660 (V2, offset
1644), 1580 (v3, offset 20), 1584 (v4, offset 20), 2112 (vendor v3, offset
2096), 2128 (vendor v4, offset 2096) — for every well-formed header value,
hence never taken from caller-supplied state. -/
theorem c6_header_size_constants :
    (∀ (h : HeaderV0) (rds rda : Nat), h.Wf → h.versioned = .V1 rds rda →
      readU32 h.write 1644 = 1648)
    ∧ (∀ (h : HeaderV0) (rds rda ds da : Nat), h.Wf →
      h.versioned = .V2 rds rda ds da → readU32 h.write 1644 = 1660)
    ∧ (∀ h : HeaderV3, h.v4_signature_size = none → readU32 h.write 20 = 1580)
    ∧ (∀ (h : HeaderV3) (s : Nat), h.v4_signature_size = some s →
      readU32 h.write 20 = 1584)
    ∧ (∀ v : VendorHeader, v.Wf → v.v4 = none → readU32 v.write 2096 = 2112)
    ∧ (∀ (v : VendorHeader) (t : VendorHeaderV4), v.Wf → v.v4 = some t →
      readU32 v.write 2096 = 2128) := by
  refine ⟨?_, ?_, ?_, ?_, ?_, ?_⟩
  · intro h rds rda hwf hv
    obtain ⟨-, -, -, -, -, -, -, -, -, hb, h1, hh, h2, -⟩ := hwf
    rw [(by norm_num : (1644 : Nat) = 1632 + 12),
      HeaderV0.readU32_write h hb.1 h1.1 hh.1 h2.1 12, hv]
    unfold HeaderV0Versioned.write
    simp only [List.append_assoc]
    rw [(by norm_num : (12 : Nat) = 4 + (8 + 0)),
      readU32_skip (u32le rds) _ 4 _ rfl, readU32_skip (u64le rda) _ 8 _ rfl]
    exact readU32_u32le 1648 (by norm_num)
  · intro h rds rda ds da hwf hv
    obtain ⟨-, -, -, -, -, -, -, -, -, hb, h1, hh, h2, -⟩ := hwf
    rw [(by norm_num : (1644 : Nat) = 1632 + 12),
      HeaderV0.readU32_write h hb.1 h1.1 hh.1 h2.1 12, hv]
    unfold HeaderV0Versioned.write
    simp only [List.append_assoc]
    rw [(by norm_num : (12 : Nat) = 4 + (8 + 0)),
      readU32_skip (u32le rds) _ 4 _ rfl, readU32_skip (u64le rda) _ 8 _ rfl]
    exact readU32_u32le_append 1660 (by norm_num) _
  · intro h hv
    rw [HeaderV3.readU32_write_20]
    simp [HeaderV3.header_size, hv]
  · intro h s hv
    rw [HeaderV3.readU32_write_20]
    simp [HeaderV3.header_size, hv]
  · intro v hwf hv
    obtain ⟨-, -, -, -, hc, -, hb, -, -, -⟩ := hwf
    rw [VendorHeader.readU32_write_2096 v hc.1 hb.1]
    simp [VendorHeader.header_size, hv]
  · intro v t hwf hv
    obtain ⟨-, -, -, -, hc, -, hb, -, -, -⟩ := hwf
    rw [VendorHeader.readU32_write_2096 v hc.1 hb.1]
    simp [VendorHeader.header_size, hv]

/-! ## Concrete example headers -/

/-- Every entry of a replicated byte is a byte. -/
theorem bytesWf_replicate (n v : Nat) (hv : v < 256) :
    bytesWf (List.replicate n v) n := by
  refine ⟨List.length_replicate n v, ?_⟩
  intro b hb
  rw [List.eq_of_mem_replicate hb]
  exact hv

/-- The concrete V1 header `c5Header` is well-formed. -/
theorem c5Header_wf : c5Header.Wf := by
  refine ⟨by norm_num [c5Header], by norm_num [c5Header], by norm_num [c5Header],
    by norm_num [c5Header], by norm_num [c5Header], by norm_num [c5Header],
    by norm_num [c5Header], by norm_num [c5Header], by norm_num [c5Header],
    bytesWf_replicate 16 0 (by norm_num), bytesWf_replicate 512 0 (by norm_num),
    bytesWf_replicate 32 0 (by norm_num), bytesWf_replicate 1024 0 (by norm_num),
    by norm_num [c5Header, HeaderV0Versioned.Wf]⟩

/-- The concrete V2 header `c4Header` is well-formed. -/
theorem c4Header_wf : c4Header.Wf := by
  refine ⟨by norm_num [c4Header], by norm_num [c4Header], by norm_num [c4Header],
    by norm_num [c4Header], by norm_num [c4Header], by norm_num [c4Header],
    by norm_num [c4Header], by norm_num [c4Header], by norm_num [c4Header],
    bytesWf_replicate 16 0 (by norm_num), bytesWf_replicate 512 0 (by norm_num),
    bytesWf_replicate 32 0 (by norm_num), bytesWf_replicate 1024 0 (by norm_num),
    by norm_num [c4Header, HeaderV0Versioned.Wf]⟩

/-- Concrete v3 header. -/
def hdr3ex : HeaderV3 :=
  { kernel_size := 2097152, ramdisk_size := 1048576, osversionpatch := 0,
    cmdline := List.replicate 1536 0, v4_signature_size := none }

/-- Concrete v4 header. -/
def hdr4ex : HeaderV3 :=
  { kernel_size := 2097152, ramdisk_size := 1048576, osversionpatch := 0,
    cmdline := List.replicate 1536 0, v4_signature_size := some 4096 }

/-- Concrete vendor v3 header. -/
def vendor3ex : VendorHeader :=
  { page_size := 4096, kernel_addr := 0, ramdisk_addr := 0,
    vendor_ramdisk_size := 0, cmdline := List.replicate 2048 0, tags_addr := 0,
    board_name := List.replicate 16 0, dtb_size := 0, dtb_addr := 0, v4 := none }

/-- Concrete vendor v4 header. -/
def vendor4ex : VendorHeader :=
  { page_size := 4096, kernel_addr := 0, ramdisk_addr := 0,
    vendor_ramdisk_size := 0, cmdline := List.replicate 2048 0, tags_addr := 0,
    board_name := List.replicate 16 0, dtb_size := 0, dtb_addr := 0,
    v4 := some ⟨4096, 1, 108, 4096⟩ }

/-- The concrete vendor v3 header is well-formed. -/
theorem vendor3ex_wf : vendor3ex.Wf := by
  refine ⟨by norm_num [vendor3ex], by norm_num [vendor3ex], by norm_num [vendor3ex],
    by norm_num [vendor3ex], bytesWf_replicate 2048 0 (by norm_num),
    by norm_num [vendor3ex], bytesWf_replicate 16 0 (by norm_num),
    by norm_num [vendor3ex], by norm_num [vendor3ex],
    by norm_num [vendor3ex, optVendorV4Wf]⟩

/-- The concrete vendor v4 header is well-formed. -/
theorem vendor4ex_wf : vendor4ex.Wf := by
  refine ⟨by norm_num [vendor4ex], by norm_num [vendor4ex], by norm_num [vendor4ex],
    by norm_num [vendor4ex], bytesWf_replicate 2048 0 (by norm_num),
    by norm_num [vendor4ex], bytesWf_replicate 16 0 (by norm_num),
    by norm_num [vendor4ex], by norm_num [vendor4ex],
    by norm_num [vendor4ex, optVendorV4Wf]⟩

/-- Witness for C6 at six concrete headers, one per variant. -/
theorem c6_header_size_constants_witness :
    readU32 c5Header.write 1644 = 1648
    ∧ readU32 c4Header.write 1644 = 1660
    ∧ readU32 hdr3ex.write 20 = 1580
    ∧ readU32 hdr4ex.write 20 = 1584
    ∧ readU32 vendor3ex.write 2096 = 2112
    ∧ readU32 vendor4ex.write 2096 = 2128 :=
  ⟨c6_header_size_constants.1 c5Header 0 0 c5Header_wf rfl,
   c6_header_size_constants.2.1 c4Header 0 0 0 0 c4Header_wf rfl,
   c6_header_size_constants.2.2.1 hdr3ex rfl,
   c6_header_size_constants.2.2.2.1 hdr4ex 4096 rfl,
   c6_header_size_constants.2.2.2.2.1 vendor3ex vendor3ex_wf rfl,
   c6_header_size_constants.2.2.2.2.2 vendor4ex ⟨4096, 1, 108, 4096⟩ vendor4ex_wf rfl⟩

/-! ## Model of reading (binrw `BinRead` and the `Header::parse` facade) -/

/-- Errors from the `binrw::Error` repertoire the codec can produce.  For the
codec-internal asserts the recorded position is the offset of the offending
field. -/
inductive BinError where
  | badMagic (pos : Nat) (found : List Nat) : BinError
  | assertFail (pos : Nat) (message : String) : BinError
  | noVariantMatch (pos : Nat) : BinError
  | shortRead : BinError
deriving DecidableEq

/-- Reading `n` raw bytes off the front of the source. -/
def parseBytes (n : Nat) (bs : List Nat) :
    Except BinError (List Nat × List Nat) :=
  if n ≤ bs.length then .ok (bs.take n, bs.drop n) else .error .shortRead

/-- Reading a little-endian `u32`. -/
def parseU32 (bs : List Nat) : Except BinError (Nat × List Nat) :=
  match parseBytes 4 bs with
  | .ok (l, rest) => .ok (leDecode l, rest)
  | .error e => .error e

/-- Reading a little-endian `u64`. -/
def parseU64 (bs : List Nat) : Except BinError (Nat × List Nat) :=
  match parseBytes 8 bs with
  | .ok (l, rest) => .ok (leDecode l, rest)
  | .error e => .error e

/-- Model of `BinRead` for `HeaderV0Versioned`: the variant is selected by the
`pre_assert(header_version == _)` guards; V1 asserts `header_size == 1648`,
V2 asserts `header_size == 1660`, and any other version matches no variant. -/
def HeaderV0Versioned.read (header_version : Nat) (bs : List Nat) :
    Except BinError (HeaderV0Versioned × List Nat) :=
  if header_version = 0 then .ok (.V0, bs)
  else if header_version = 1 then
    match parseU32 bs with
    | .error e => .error e
    | .ok (recovery_dtbo_size, bs) =>
      match parseU64 bs with
      | .error e => .error e
      | .ok (recovery_dtbo_addr, bs) =>
        match parseU32 bs with
        | .error e => .error e
        | .ok (header_size, bs) =>
          if header_size = 1648 then
            .ok (.V1 recovery_dtbo_size recovery_dtbo_addr, bs)
          else .error (.assertFail 1644 "header_size == 1648")
  else if header_version = 2 then
    match parseU32 bs with
    | .error e => .error e
    | .ok (recovery_dtbo_size, bs) =>
      match parseU64 bs with
      | .error e => .error e
      | .ok (recovery_dtbo_addr, bs) =>
        match parseU32 bs with
        | .error e => .error e
        | .ok (header_size, bs) =>
          if header_size = 1660 then
            match parseU32 bs with
            | .error e => .error e
            | .ok (dtb_size, bs) =>
              match parseU64 bs with
              | .error e => .error e
              | .ok (dtb_addr, bs) =>
                .ok (.V2 recovery_dtbo_size recovery_dtbo_addr dtb_size dtb_addr,
                  bs)
          else .error (.assertFail 1644 "header_size == 1660")
  else .error (.noVariantMatch 1632)

/-- Model of `BinRead` for `HeaderV0`: magic check (`BadMagic` on mismatch),
the fixed prefix in declared order, then the version-dispatched trailer. -/
def HeaderV0.read (bs : List Nat) : Except BinError (HeaderV0 × List Nat) := do
  let (magic, bs) ← parseBytes 8 bs
  if magic = magicBoot then
    let (kernel_size, bs) ← parseU32 bs
    let (kernel_addr, bs) ← parseU32 bs
    let (ramdisk_size, bs) ← parseU32 bs
    let (ramdisk_addr, bs) ← parseU32 bs
    let (second_bootloader_size, bs) ← parseU32 bs
    let (second_bootloader_addr, bs) ← parseU32 bs
    let (tags_addr, bs) ← parseU32 bs
    let (page_size, bs) ← parseU32 bs
    let (header_version, bs) ← parseU32 bs
    let (osversionpatch, bs) ← parseU32 bs
    let (board_name, bs) ← parseBytes 16 bs
    let (cmdline_part_1, bs) ← parseBytes 512 bs
    let (hash_digest, bs) ← parseBytes 32 bs
    let (cmdline_part_2, bs) ← parseBytes 1024 bs
    let (versioned, bs) ← HeaderV0Versioned.read header_version bs
    pure (⟨kernel_size, kernel_addr, ramdisk_size, ramdisk_addr,
      second_bootloader_size, second_bootloader_addr, tags_addr, page_size,
      osversionpatch, board_name, cmdline_part_1, hash_digest, cmdline_part_2,
      versioned⟩, bs)
  else .error (.badMagic 0 magic)

/-- Model of `BinRead` for `HeaderV3`: magic check, prefix, the 16 skipped
(pad) bytes, the inline version, the 1536-byte cmdline, the conditional
`v4_signature_size`, and finally the struct-level
`assert(header_size == self.header_size())`. -/
def HeaderV3.read (bs : List Nat) : Except BinError (HeaderV3 × List Nat) := do
  let (magic, bs) ← parseBytes 8 bs
  if magic = magicBoot then
    let (kernel_size, bs) ← parseU32 bs
    let (ramdisk_size, bs) ← parseU32 bs
    let (osversionpatch, bs) ← parseU32 bs
    let (header_size, bs) ← parseU32 bs
    let (_reserved, bs) ← parseBytes 16 bs
    let (header_version, bs) ← parseU32 bs
    let (cmdline, bs) ← parseBytes 1536 bs
    if header_version = 4 then
      let (sig, bs) ← parseU32 bs
      let h : HeaderV3 :=
        ⟨kernel_size, ramdisk_size, osversionpatch, cmdline, some sig⟩
      if header_size = h.header_size then pure (h, bs)
      else .error (.assertFail 20 "header_size == self.header_size()")
    else
      let h : HeaderV3 :=
        ⟨kernel_size, ramdisk_size, osversionpatch, cmdline, none⟩
      if header_size = h.header_size then pure (h, bs)
      else .error (.assertFail 20 "header_size == self.header_size()")
  else .error (.badMagic 0 magic)

/-- Model of `BinRead` for `VendorHeader`: magic `b"VNDRBOOT"`, the declared
fields, the conditional v4 trailer, and the struct-level header_size assert. -/
def VendorHeader.read (bs : List Nat) :
    Except BinError (VendorHeader × List Nat) := do
  let (magic, bs) ← parseBytes 8 bs
  if magic = magicVendor then
    let (header_version, bs) ← parseU32 bs
    let (page_size, bs) ← parseU32 bs
    let (kernel_addr, bs) ← parseU32 bs
    let (ramdisk_addr, bs) ← parseU32 bs
    let (vendor_ramdisk_size, bs) ← parseU32 bs
    let (cmdline, bs) ← parseBytes 2048 bs
    let (tags_addr, bs) ← parseU32 bs
    let (board_name, bs) ← parseBytes 16 bs
    let (header_size, bs) ← parseU32 bs
    let (dtb_size, bs) ← parseU32 bs
    let (dtb_addr, bs) ← parseU64 bs
    if header_version = 4 then
      let (t1, bs) ← parseU32 bs
      let (t2, bs) ← parseU32 bs
      let (t3, bs) ← parseU32 bs
      let (t4, bs) ← parseU32 bs
      let v : VendorHeader := ⟨page_size, kernel_addr, ramdisk_addr,
        vendor_ramdisk_size, cmdline, tags_addr, board_name, dtb_size, dtb_addr,
        some ⟨t1, t2, t3, t4⟩⟩
      if header_size = v.header_size then pure (v, bs)
      else .error (.assertFail 2096 "header_size == self.header_size()")
    else
      let v : VendorHeader := ⟨page_size, kernel_addr, ramdisk_addr,
        vendor_ramdisk_size, cmdline, tags_addr, board_name, dtb_size, dtb_addr,
        none⟩
      if header_size = v.header_size then pure (v, bs)
      else .error (.assertFail 2096 "header_size == self.header_size()")
  else .error (.badMagic 0 magic)

/-- Model of `enum Header`, the dispatch facade over versions 0 through 4. -/
inductive Header where
  | V0 (hdr : HeaderV0) : Header
  | V3 (hdr : HeaderV3) : Header
deriving DecidableEq

/-- Model of `Header::parse`: read the little-endian version word at offset
0x28 (failing on sources shorter than 0x2c bytes), seek back and dispatch;
versions outside `0..=4` give
`binrw::Error::AssertFail { pos: 0x28, message: "Unknown header version: v" }`. -/
def Header.parse (bs : List Nat) : Except BinError Header :=
  if 0x2c ≤ bs.length then
    if readU32 bs 0x28 ≤ 2 then
      match HeaderV0.read bs with
      | .ok (hdr, _) => .ok (.V0 hdr)
      | .error e => .error e
    else if readU32 bs 0x28 = 3 ∨ readU32 bs 0x28 = 4 then
      match HeaderV3.read bs with
      | .ok (hdr, _) => .ok (.V3 hdr)
      | .error e => .error e
    else
      .error (.assertFail 0x28
        ("Unknown header version: " ++ toString (readU32 bs 0x28)))
  else .error .shortRead

/-- Model of `Header::write`: dispatch to the contained variant's writer. -/
def Header.write : Header → List Nat
  | .V0 hdr => hdr.write
  | .V3 hdr => hdr.write

/-- Well-formedness of a facade header value. -/
def Header.Wf : Header → Prop
  | .V0 hdr => hdr.Wf
  | .V3 hdr => hdr.Wf

/-! ## Claim C8 (unknown version) -/

/-- C8: whenever the little-endian word at offset 0x28 is outside
`{0, 1, 2, 3, 4}`, `Header::parse` fails with the `AssertFail` error carrying
position 0x28 and the offending value, and no header is returned. -/
theorem c8_unknown_version (bs : List Nat) (hlen : 0x2c ≤ bs.length)
    (hv : 5 ≤ readU32 bs 0x28) :
    Header.parse bs
      = .error (.assertFail 0x28
          ("Unknown header version: " ++ toString (readU32 bs 0x28))) := by
  unfold Header.parse
  rw [if_pos hlen, if_neg (by omega), if_neg (by omega)]

/-- Concrete source whose version word at 0x28 is 5. -/
def c8Bytes : List Nat := List.replicate 40 0 ++ [5, 0, 0, 0]

/-- Witness for C8: a version word of 5 yields exactly
`AssertFail { pos: 0x28, message: "Unknown header version: 5" }`. -/
theorem c8_unknown_version_witness :
    Header.parse c8Bytes
      = .error (.assertFail 0x28 "Unknown header version: 5") := by
  have h := c8_unknown_version c8Bytes (by decide) (by decide)
  rw [h, (by decide : readU32 c8Bytes 0x28 = 5)]
  rfl

/-! ## Inversion toolkit for the readers -/

/-- A byte source: every element is a byte value. -/
def allBytes (bs : List Nat) : Prop := ∀ b ∈ bs, b < 256

/-- Bind of a successful `Except` step reduces. -/
theorem exceptBind_ok {α β : Type} (a : α) (f : α → Except BinError β) :
    (Except.ok a >>= f) = f a := rfl

/-- Bind of a failing `Except` step short-circuits. -/
theorem exceptBind_error {α β : Type} (e : BinError)
    (f : α → Except BinError β) : (Except.error e >>= f) = Except.error e := rfl

/-- Inverting one monadic parse step. -/
theorem bind_ok_inv {α β : Type} {x : Except BinError α}
    {f : α → Except BinError β} {b : β} (h : (x >>= f) = .ok b) :
    ∃ a, x = .ok a ∧ f a = .ok b := by
  cases x with
  | ok a => exact ⟨a, rfl, h⟩
  | error e => exact Except.noConfusion h

/-- A successful `parseBytes` splits the source. -/
theorem parseBytes_inv {n : Nat} {bs l rest : List Nat}
    (h : parseBytes n bs = .ok (l, rest)) :
    bs = l ++ rest ∧ l.length = n := by
  unfold parseBytes at h
  by_cases hl : n ≤ bs.length
  · rw [if_pos hl] at h
    cases h
    exact ⟨(List.take_append_drop n bs).symm, List.length_take_of_le hl⟩
  · rw [if_neg hl] at h
    exact Except.noConfusion h

/-- Byte-ness is inherited by both halves of a split source. -/
theorem allBytes_append {l rest : List Nat} (h : allBytes (l ++ rest)) :
    allBytes l ∧ allBytes rest :=
  ⟨fun b hb => h b (List.mem_append_left _ hb),
   fun b hb => h b (List.mem_append_right _ hb)⟩

/-- A successful `parseBytes` on a byte source, with byte-ness propagated. -/
theorem parseBytes_inv' {n : Nat} {bs l rest : List Nat} (hb : allBytes bs)
    (h : parseBytes n bs = .ok (l, rest)) :
    bs = l ++ rest ∧ l.length = n ∧ allBytes l ∧ allBytes rest := by
  obtain ⟨hs, hl⟩ := parseBytes_inv h
  obtain ⟨h1, h2⟩ := allBytes_append (hs ▸ hb)
  exact ⟨hs, hl, h1, h2⟩

/-- The value decoded from a byte list is bounded by `256 ^ length`. -/
theorem leDecode_lt (l : List Nat) (hb : allBytes l) :
    leDecode l < 256 ^ l.length := by
  induction l with
  | nil => simp [leDecode]
  | cons b t ih =>
    have hbb : b < 256 := hb b (by simp)
    have iht := ih (fun x hx => hb x (by simp [hx]))
    simp only [leDecode, List.length_cons, pow_succ]
    omega

/-- Re-encoding the decoded value of 4 bytes restores them. -/
theorem u32le_leDecode (l : List Nat) (hl : l.length = 4)
    (hb : allBytes l) : u32le (leDecode l) = l := by
  rcases l with - | ⟨b0, - | ⟨b1, - | ⟨b2, - | ⟨b3, - | ⟨b4, t⟩⟩⟩⟩⟩ <;>
    simp only [List.length_nil, List.length_cons] at hl
  case cons.cons.cons.cons.nil =>
    have h0 : b0 < 256 := hb _ (by simp)
    have h1 : b1 < 256 := hb _ (by simp)
    have h2 : b2 < 256 := hb _ (by simp)
    have h3 : b3 < 256 := hb _ (by simp)
    simp only [leDecode, u32le, List.cons.injEq, and_true]
    refine ⟨by omega, by omega, by omega, by omega⟩
  all_goals omega

/-- Re-encoding the decoded value of 8 bytes restores them. -/
theorem u64le_leDecode (l : List Nat) (hl : l.length = 8)
    (hb : allBytes l) : u64le (leDecode l) = l := by
  rcases l with - | ⟨b0, - | ⟨b1, - | ⟨b2, - | ⟨b3, - | ⟨b4, - | ⟨b5, - | ⟨b6,
    - | ⟨b7, - | ⟨b8, t⟩⟩⟩⟩⟩⟩⟩⟩⟩ <;>
    simp only [List.length_nil, List.length_cons] at hl
  case cons.cons.cons.cons.cons.cons.cons.cons.nil =>
    have h0 : b0 < 256 := hb _ (by simp)
    have h1 : b1 < 256 := hb _ (by simp)
    have h2 : b2 < 256 := hb _ (by simp)
    have h3 : b3 < 256 := hb _ (by simp)
    have h4 : b4 < 256 := hb _ (by simp)
    have h5 : b5 < 256 := hb _ (by simp)
    have h6 : b6 < 256 := hb _ (by simp)
    have h7 : b7 < 256 := hb _ (by simp)
    simp only [leDecode, u64le, List.cons.injEq, and_true]
    refine ⟨by omega, by omega, by omega, by omega, by omega, by omega,
      by omega, by omega⟩
  all_goals omega

/-- A successful `parseU32` yields the decode of a 4-byte split. -/
theorem parseU32_inv {bs : List Nat} {x : Nat} {rest : List Nat}
    (h : parseU32 bs = .ok (x, rest)) :
    ∃ l, bs = l ++ rest ∧ l.length = 4 ∧ x = leDecode l := by
  unfold parseU32 at h
  cases hp : parseBytes 4 bs with
  | error e => rw [hp] at h; exact Except.noConfusion h
  | ok q =>
    rw [hp] at h
    obtain ⟨l, r⟩ := q
    cases h
    obtain ⟨hs, hl⟩ := parseBytes_inv hp
    exact ⟨l, hs, hl, rfl⟩

/-- On a byte source, a successful `parseU32` splits off exactly the
little-endian encoding of its value, which is a `u32`. -/
theorem parseU32_inv' {bs : List Nat} {x : Nat} {rest : List Nat}
    (hb : allBytes bs) (h : parseU32 bs = .ok (x, rest)) :
    bs = u32le x ++ rest ∧ x < 2 ^ 32 ∧ allBytes rest := by
  obtain ⟨l, hs, hl, hdec⟩ := parseU32_inv h
  obtain ⟨hbl, hbr⟩ := allBytes_append (hs ▸ hb)
  subst hdec
  have hlt := leDecode_lt l hbl
  rw [hl] at hlt
  refine ⟨?_, by norm_num at hlt ⊢; exact hlt, hbr⟩
  rw [u32le_leDecode l hl hbl]
  exact hs

/-- A successful `parseU64` on a byte source. -/
theorem parseU64_inv' {bs : List Nat} {x : Nat} {rest : List Nat}
    (hb : allBytes bs) (h : parseU64 bs = .ok (x, rest)) :
    bs = u64le x ++ rest ∧ x < 2 ^ 64 ∧ allBytes rest := by
  unfold parseU64 at h
  cases hp : parseBytes 8 bs with
  | error e => rw [hp] at h; exact Except.noConfusion h
  | ok q =>
    rw [hp] at h
    obtain ⟨l, r⟩ := q
    cases h
    obtain ⟨hs, hl, hbl, hbr⟩ := parseBytes_inv' hb hp
    have hlt := leDecode_lt l hbl
    rw [hl] at hlt
    refine ⟨?_, by norm_num at hlt ⊢; exact hlt, hbr⟩
    rw [u64le_leDecode l hl hbl]
    exact hs

/-! ## Magic dispatch facts -/

/-- `HeaderV0::read` fails with `BadMagic` unless the source starts with
`b"ANDROID!"`. -/
theorem headerV0_read_badMagic (bs : List Nat) (hlen : 8 ≤ bs.length)
    (hm : bs.take 8 ≠ magicBoot) :
    HeaderV0.read bs = .error (.badMagic 0 (bs.take 8)) := by
  have hp : parseBytes 8 bs = .ok (bs.take 8, bs.drop 8) := by
    unfold parseBytes
    rw [if_pos hlen]
  unfold HeaderV0.read
  rw [hp, exceptBind_ok]
  dsimp only
  rw [if_neg hm]

/-- `HeaderV3::read` fails with `BadMagic` unless the source starts with
`b"ANDROID!"`. -/
theorem headerV3_read_badMagic (bs : List Nat) (hlen : 8 ≤ bs.length)
    (hm : bs.take 8 ≠ magicBoot) :
    HeaderV3.read bs = .error (.badMagic 0 (bs.take 8)) := by
  have hp : parseBytes 8 bs = .ok (bs.take 8, bs.drop 8) := by
    unfold parseBytes
    rw [if_pos hlen]
  unfold HeaderV3.read
  rw [hp, exceptBind_ok]
  dsimp only
  rw [if_neg hm]

/-- A successful `HeaderV0::read` implies the boot magic was present. -/
theorem headerV0_read_ok_magic {bs : List Nat} {p : HeaderV0 × List Nat}
    (h : HeaderV0.read bs = .ok p) : bs.take 8 = magicBoot := by
  by_cases hlen : 8 ≤ bs.length
  · by_contra hm
    rw [headerV0_read_badMagic bs hlen hm] at h
    exact Except.noConfusion h
  · have hp : parseBytes 8 bs = .error .shortRead := by
      unfold parseBytes
      rw [if_neg hlen]
    unfold HeaderV0.read at h
    rw [hp, exceptBind_error] at h
    exact Except.noConfusion h

/-- A successful `HeaderV3::read` implies the boot magic was present. -/
theorem headerV3_read_ok_magic {bs : List Nat} {p : HeaderV3 × List Nat}
    (h : HeaderV3.read bs = .ok p) : bs.take 8 = magicBoot := by
  by_cases hlen : 8 ≤ bs.length
  · by_contra hm
    rw [headerV3_read_badMagic bs hlen hm] at h
    exact Except.noConfusion h
  · have hp : parseBytes 8 bs = .error .shortRead := by
      unfold parseBytes
      rw [if_neg hlen]
    unfold HeaderV3.read at h
    rw [hp, exceptBind_error] at h
    exact Except.noConfusion h

/-- A successful facade parse implies the boot magic was present. -/
theorem Header.parse_ok_magic {bs : List Nat} {hd : Header}
    (h : Header.parse bs = .ok hd) : bs.take 8 = magicBoot := by
  unfold Header.parse at h
  by_cases hlen : 0x2c ≤ bs.length
  · rw [if_pos hlen] at h
    by_cases h2 : readU32 bs 0x28 ≤ 2
    · rw [if_pos h2] at h
      cases hr : HeaderV0.read bs with
      | ok p => exact headerV0_read_ok_magic hr
      | error e => rw [hr] at h; exact Except.noConfusion h
    · rw [if_neg h2] at h
      by_cases h34 : readU32 bs 0x28 = 3 ∨ readU32 bs 0x28 = 4
      · rw [if_pos h34] at h
        cases hr : HeaderV3.read bs with
        | ok p => exact headerV3_read_ok_magic hr
        | error e => rw [hr] at h; exact Except.noConfusion h
      · rw [if_neg h34] at h
        exact Except.noConfusion h
  · rw [if_neg hlen] at h
    exact Except.noConfusion h

/-- On a source carrying the vendor magic, the facade parse always errors;
with at least 0x2c bytes present the error is the bad-magic rejection of the
selected boot codec or the unknown-version assert. -/
theorem parse_vendor_magic_fails (bs : List Nat) (h8 : bs.take 8 = magicVendor) :
    ∃ e, Header.parse bs = .error e := by
  cases hp : Header.parse bs with
  | ok hd =>
    have := Header.parse_ok_magic hp
    rw [h8] at this
    exact absurd this (by decide)
  | error e => exact ⟨e, rfl⟩

/-! ## Claim C10 (no vendor branch in the facade) -/

/-- C10: `Header::parse` returns a header only when the source starts with
`b"ANDROID!"`; every source beginning with `b"VNDRBOOT"` makes it fail — with
the bad-magic rejection of the dispatched boot codec or with the
unknown-version assert, depending on the word at 0x28 — and never yields a
header. -/
theorem c10_vendor_rejected :
    (∀ (bs : List Nat) (hd : Header), Header.parse bs = .ok hd →
      bs.take 8 = magicBoot)
    ∧ (∀ bs : List Nat, bs.take 8 = magicVendor →
      (∃ e, Header.parse bs = .error e) ∧ ∀ hd, Header.parse bs ≠ .ok hd)
    ∧ (∀ bs : List Nat, bs.take 8 = magicVendor → 0x2c ≤ bs.length →
      Header.parse bs = .error (.badMagic 0 (bs.take 8))
      ∨ Header.parse bs
          = .error (.assertFail 0x28
              ("Unknown header version: " ++ toString (readU32 bs 0x28)))) := by
  refine ⟨fun bs hd h => Header.parse_ok_magic h, fun bs h8 => ?_, fun bs h8 hlen => ?_⟩
  · obtain ⟨e, he⟩ := parse_vendor_magic_fails bs h8
    refine ⟨⟨e, he⟩, fun hd hok => ?_⟩
    rw [he] at hok
    exact Except.noConfusion hok
  · have hm : bs.take 8 ≠ magicBoot := by
      rw [h8]
      decide
    have hlen8 : 8 ≤ bs.length := by omega
    unfold Header.parse
    rw [if_pos hlen]
    by_cases h2 : readU32 bs 0x28 ≤ 2
    · rw [if_pos h2, headerV0_read_badMagic bs hlen8 hm]
      exact Or.inl rfl
    · rw [if_neg h2]
      by_cases h34 : readU32 bs 0x28 = 3 ∨ readU32 bs 0x28 = 4
      · rw [if_pos h34, headerV3_read_badMagic bs hlen8 hm]
        exact Or.inl rfl
      · rw [if_neg h34]
        exact Or.inr rfl

/-- Witness for C10 at the bare vendor magic (an 8-byte source). -/
theorem c10_vendor_rejected_witness :
    (∃ e, Header.parse magicVendor = .error e)
    ∧ ∀ hd, Header.parse magicVendor ≠ .ok hd :=
  c10_vendor_rejected.2.1 magicVendor (by decide)

/-! ## Forward round-trip: reading back a serialized header -/

/-- `parseBytes` over an exact-length chunk splits it off. -/
theorem parseBytes_append (n : Nat) (l rest : List Nat) (hl : l.length = n) :
    parseBytes n (l ++ rest) = .ok (l, rest) := by
  unfold parseBytes
  rw [if_pos (by rw [List.length_append]; omega), List.take_left' hl,
    List.drop_left' hl]

/-- Little-endian decode inverts the `u64` encode. -/
theorem leDecode_u64le (x : Nat) (hx : x < 2 ^ 64) : leDecode (u64le x) = x := by
  simp only [u64le, leDecode]
  omega

/-- `parseU32` over an encoded `u32` recovers the value. -/
theorem parseU32_u32le (x : Nat) (hx : x < 2 ^ 32) (rest : List Nat) :
    parseU32 (u32le x ++ rest) = .ok (x, rest) := by
  unfold parseU32
  rw [parseBytes_append 4 (u32le x) rest rfl]
  dsimp only
  rw [leDecode_u32le x hx]

/-- `parseU64` over an encoded `u64` recovers the value. -/
theorem parseU64_u64le (x : Nat) (hx : x < 2 ^ 64) (rest : List Nat) :
    parseU64 (u64le x ++ rest) = .ok (x, rest) := by
  unfold parseU64
  rw [parseBytes_append 8 (u64le x) rest rfl]
  dsimp only
  rw [leDecode_u64le x hx]

/-- Reading back the serialized V0 trailer. -/
theorem HeaderV0Versioned.read_write_V0 (rest : List Nat) :
    HeaderV0Versioned.read 0 rest = .ok (.V0, rest) := by
  unfold HeaderV0Versioned.read
  rw [if_pos rfl]

/-- Reading back the serialized V1 trailer. -/
theorem HeaderV0Versioned.read_write_V1 (rds rda : Nat) (h1 : rds < 2 ^ 32)
    (h2 : rda < 2 ^ 64) (rest : List Nat) :
    HeaderV0Versioned.read 1 ((HeaderV0Versioned.V1 rds rda).write ++ rest)
      = .ok (.V1 rds rda, rest) := by
  unfold HeaderV0Versioned.write HeaderV0Versioned.read
  norm_num [List.append_assoc]
  rw [parseU32_u32le rds h1]
  dsimp only
  rw [parseU64_u64le rda h2]
  dsimp only
  rw [parseU32_u32le 1648 (by norm_num)]
  dsimp only
  rw [if_pos rfl]

/-- Reading back the serialized V2 trailer. -/
theorem HeaderV0Versioned.read_write_V2 (rds rda ds da : Nat)
    (h1 : rds < 2 ^ 32) (h2 : rda < 2 ^ 64) (h3 : ds < 2 ^ 32)
    (h4 : da < 2 ^ 64) (rest : List Nat) :
    HeaderV0Versioned.read 2
        ((HeaderV0Versioned.V2 rds rda ds da).write ++ rest)
      = .ok (.V2 rds rda ds da, rest) := by
  unfold HeaderV0Versioned.write HeaderV0Versioned.read
  norm_num [List.append_assoc]
  rw [parseU32_u32le rds h1]
  dsimp only
  rw [parseU64_u64le rda h2]
  dsimp only
  rw [parseU32_u32le 1660 (by norm_num)]
  dsimp only
  rw [if_pos rfl, parseU32_u32le ds h3]
  dsimp only
  rw [parseU64_u64le da h4]

/-- Reading back a serialized `HeaderV0` recovers it and leaves the payload. -/
theorem headerV0_read_write (h : HeaderV0) (hwf : h.Wf) (rest : List Nat) :
    HeaderV0.read (h.write ++ rest) = .ok (h, rest) := by
  obtain ⟨ks, ka, rs, ra, sbs, sba, ta, ps, ovp, bn, c1, hdg, c2, vv⟩ := h
  obtain ⟨hks, hka, hrs, hra, hsbs, hsba, hta, hps, hovp, hbn, hc1, hhd, hc2,
    hvv⟩ := hwf
  have hhv : HeaderV0.header_version
      ⟨ks, ka, rs, ra, sbs, sba, ta, ps, ovp, bn, c1, hdg, c2, vv⟩ < 2 ^ 32 := by
    cases vv <;> norm_num [HeaderV0.header_version]
  unfold HeaderV0.write HeaderV0.read
  dsimp only
  simp only [List.append_assoc]
  rw [parseBytes_append 8 magicBoot _ rfl, exceptBind_ok]
  dsimp only
  rw [if_pos rfl, parseU32_u32le ks hks _, exceptBind_ok]
  dsimp only
  rw [parseU32_u32le ka hka _, exceptBind_ok]
  dsimp only
  rw [parseU32_u32le rs hrs _, exceptBind_ok]
  dsimp only
  rw [parseU32_u32le ra hra _, exceptBind_ok]
  dsimp only
  rw [parseU32_u32le sbs hsbs _, exceptBind_ok]
  dsimp only
  rw [parseU32_u32le sba hsba _, exceptBind_ok]
  dsimp only
  rw [parseU32_u32le ta hta _, exceptBind_ok]
  dsimp only
  rw [parseU32_u32le ps hps _, exceptBind_ok]
  dsimp only
  rw [parseU32_u32le _ hhv _, exceptBind_ok]
  dsimp only
  rw [parseU32_u32le ovp hovp _, exceptBind_ok]
  dsimp only
  rw [parseBytes_append 16 bn _ hbn.1, exceptBind_ok]
  dsimp only
  rw [parseBytes_append 512 c1 _ hc1.1, exceptBind_ok]
  dsimp only
  rw [parseBytes_append 32 hdg _ hhd.1, exceptBind_ok]
  dsimp only
  rw [parseBytes_append 1024 c2 _ hc2.1, exceptBind_ok]
  dsimp only
  cases vv with
  | V0 =>
    dsimp only [HeaderV0.header_version, HeaderV0Versioned.write]
    rw [List.nil_append, HeaderV0Versioned.read_write_V0 rest, exceptBind_ok]
    rfl
  | V1 rds rda =>
    obtain ⟨w1, w2⟩ := hvv
    dsimp only [HeaderV0.header_version]
    rw [HeaderV0Versioned.read_write_V1 rds rda w1 w2 rest, exceptBind_ok]
    rfl
  | V2 rds rda ds da =>
    obtain ⟨w1, w2, w3, w4⟩ := hvv
    dsimp only [HeaderV0.header_version]
    rw [HeaderV0Versioned.read_write_V2 rds rda ds da w1 w2 w3 w4 rest,
      exceptBind_ok]
    rfl

/-- Reading back a serialized `HeaderV3` recovers it and leaves the payload. -/
theorem headerV3_read_write (h : HeaderV3) (hwf : h.Wf) (rest : List Nat) :
    HeaderV3.read (h.write ++ rest) = .ok (h, rest) := by
  obtain ⟨ks, rs, ovp, cm, v4⟩ := h
  obtain ⟨hks, hrs, hovp, hcm, hv4⟩ := hwf
  cases v4 with
  | none =>
    unfold HeaderV3.write HeaderV3.read
    dsimp only [HeaderV3.header_size, HeaderV3.header_version]
    simp only [List.append_assoc, List.nil_append, List.append_nil]
    rw [parseBytes_append 8 magicBoot _ rfl, exceptBind_ok]
    dsimp only
    rw [if_pos rfl, parseU32_u32le ks hks _, exceptBind_ok]
    dsimp only
    rw [parseU32_u32le rs hrs _, exceptBind_ok]
    dsimp only
    rw [parseU32_u32le ovp hovp _, exceptBind_ok]
    dsimp only
    rw [parseU32_u32le 1580 (by norm_num) _, exceptBind_ok]
    dsimp only
    rw [parseBytes_append 16 (List.replicate 16 0) _ rfl, exceptBind_ok]
    dsimp only
    rw [parseU32_u32le 3 (by norm_num) _, exceptBind_ok]
    dsimp only
    rw [parseBytes_append 1536 cm _ hcm.1, exceptBind_ok]
    dsimp only
    rw [if_neg (by omega)]
    rw [if_pos rfl]
    rfl
  | some s =>
    have hs : s < 2 ^ 32 := hv4
    unfold HeaderV3.write HeaderV3.read
    dsimp only [HeaderV3.header_size, HeaderV3.header_version]
    simp only [List.append_assoc, List.nil_append, List.append_nil]
    rw [parseBytes_append 8 magicBoot _ rfl, exceptBind_ok]
    dsimp only
    rw [if_pos rfl, parseU32_u32le ks hks _, exceptBind_ok]
    dsimp only
    rw [parseU32_u32le rs hrs _, exceptBind_ok]
    dsimp only
    rw [parseU32_u32le ovp hovp _, exceptBind_ok]
    dsimp only
    rw [parseU32_u32le 1584 (by norm_num) _, exceptBind_ok]
    dsimp only
    rw [parseBytes_append 16 (List.replicate 16 0) _ rfl, exceptBind_ok]
    dsimp only
    rw [parseU32_u32le 4 (by norm_num) _, exceptBind_ok]
    dsimp only
    rw [parseBytes_append 1536 cm _ hcm.1, exceptBind_ok]
    dsimp only
    rw [if_pos rfl, parseU32_u32le s hs _, exceptBind_ok]
    dsimp only [HeaderV3.header_size]
    rw [if_pos rfl]
    rfl

/-- Reading back a serialized `VendorHeader` recovers it and leaves the
payload. -/
theorem vendorHeader_read_write (v : VendorHeader) (hwf : v.Wf)
    (rest : List Nat) : VendorHeader.read (v.write ++ rest) = .ok (v, rest) := by
  obtain ⟨ps, ka, ra, vrs, cm, ta, bn, ds, da, v4⟩ := v
  obtain ⟨hps, hka, hra, hvrs, hcm, hta, hbn, hds, hda, hv4⟩ := hwf
  cases v4 with
  | none =>
    unfold VendorHeader.write VendorHeader.read
    dsimp only [VendorHeader.header_size, VendorHeader.header_version]
    simp only [List.append_assoc, List.nil_append, List.append_nil]
    rw [parseBytes_append 8 magicVendor _ rfl, exceptBind_ok]
    dsimp only
    rw [if_pos rfl, parseU32_u32le 3 (by norm_num) _, exceptBind_ok]
    dsimp only
    rw [parseU32_u32le ps hps _, exceptBind_ok]
    dsimp only
    rw [parseU32_u32le ka hka _, exceptBind_ok]
    dsimp only
    rw [parseU32_u32le ra hra _, exceptBind_ok]
    dsimp only
    rw [parseU32_u32le vrs hvrs _, exceptBind_ok]
    dsimp only
    rw [parseBytes_append 2048 cm _ hcm.1, exceptBind_ok]
    dsimp only
    rw [parseU32_u32le ta hta _, exceptBind_ok]
    dsimp only
    rw [parseBytes_append 16 bn _ hbn.1, exceptBind_ok]
    dsimp only
    rw [parseU32_u32le 2112 (by norm_num) _, exceptBind_ok]
    dsimp only
    rw [parseU32_u32le ds hds _, exceptBind_ok]
    dsimp only
    rw [parseU64_u64le da hda _, exceptBind_ok]
    dsimp only
    rw [if_neg (by omega)]
    rw [if_pos rfl]
    rfl
  | some t =>
    obtain ⟨t1, t2, t3, t4⟩ := t
    obtain ⟨ht1, ht2, ht3, ht4⟩ := hv4
    unfold VendorHeader.write VendorHeader.read
    dsimp only [VendorHeader.header_size, VendorHeader.header_version]
    simp only [List.append_assoc, List.nil_append, List.append_nil]
    rw [parseBytes_append 8 magicVendor _ rfl, exceptBind_ok]
    dsimp only
    rw [if_pos rfl, parseU32_u32le 4 (by norm_num) _, exceptBind_ok]
    dsimp only
    rw [parseU32_u32le ps hps _, exceptBind_ok]
    dsimp only
    rw [parseU32_u32le ka hka _, exceptBind_ok]
    dsimp only
    rw [parseU32_u32le ra hra _, exceptBind_ok]
    dsimp only
    rw [parseU32_u32le vrs hvrs _, exceptBind_ok]
    dsimp only
    rw [parseBytes_append 2048 cm _ hcm.1, exceptBind_ok]
    dsimp only
    rw [parseU32_u32le ta hta _, exceptBind_ok]
    dsimp only
    rw [parseBytes_append 16 bn _ hbn.1, exceptBind_ok]
    dsimp only
    rw [parseU32_u32le 2128 (by norm_num) _, exceptBind_ok]
    dsimp only
    rw [parseU32_u32le ds hds _, exceptBind_ok]
    dsimp only
    rw [parseU64_u64le da hda _, exceptBind_ok]
    dsimp only
    rw [if_pos rfl, parseU32_u32le t1 ht1 _, exceptBind_ok]
    dsimp only
    rw [parseU32_u32le t2 ht2 _, exceptBind_ok]
    dsimp only
    rw [parseU32_u32le t3 ht3 _, exceptBind_ok]
    dsimp only
    rw [parseU32_u32le t4 ht4 _, exceptBind_ok]
    dsimp only [VendorHeader.header_size]
    rw [if_pos rfl]
    rfl

/-- Length of the `u32` encoding. -/
theorem u32le_length (x : Nat) : (u32le x).length = 4 := rfl

/-- Length of the `u64` encoding. -/
theorem u64le_length (x : Nat) : (u64le x).length = 8 := rfl

/-- Length of the boot magic. -/
theorem magicBoot_length : magicBoot.length = 8 := rfl

/-- Length of the vendor magic. -/
theorem magicVendor_length : magicVendor.length = 8 := rfl

/-- A serialized `HeaderV0` is at least its fixed 1632-byte prefix long. -/
theorem headerV0_write_length_ge (h : HeaderV0) (hwf : h.Wf) :
    1632 ≤ h.write.length := by
  obtain ⟨-, -, -, -, -, -, -, -, -, hbn, hc1, hhd, hc2, -⟩ := hwf
  unfold HeaderV0.write
  simp only [List.length_append, hbn.1, hc1.1, hhd.1, hc2.1, u32le_length,
    magicBoot_length]
  omega

/-- A serialized `HeaderV3` is at least 1580 bytes long. -/
theorem headerV3_write_length_ge (h : HeaderV3) (hwf : h.Wf) :
    1580 ≤ h.write.length := by
  obtain ⟨-, -, -, hcm, -⟩ := hwf
  unfold HeaderV3.write
  simp only [List.length_append, hcm.1, u32le_length, magicBoot_length,
    List.length_replicate]
  omega

/-- The version tag of a v0-family header is at most 2. -/
theorem HeaderV0.header_version_le_two (h : HeaderV0) :
    h.header_version ≤ 2 := by
  cases hv : h.versioned <;> simp [HeaderV0.header_version, hv]

/-- The word at offset 0x28 of a serialized `HeaderV0` (plus any payload) is
the recomputed `header_version`. -/
theorem headerV0_readU32_write_40 (h : HeaderV0) (payload : List Nat) :
    readU32 (h.write ++ payload) 40 = h.header_version := by
  unfold HeaderV0.write
  simp only [List.append_assoc]
  rw [(by norm_num : (40 : Nat)
      = 8 + (4 + (4 + (4 + (4 + (4 + (4 + (4 + (4 + 0))))))))),
    readU32_skip magicBoot _ 8 _ rfl,
    readU32_skip (u32le h.kernel_size) _ 4 _ rfl,
    readU32_skip (u32le h.kernel_addr) _ 4 _ rfl,
    readU32_skip (u32le h.ramdisk_size) _ 4 _ rfl,
    readU32_skip (u32le h.ramdisk_addr) _ 4 _ rfl,
    readU32_skip (u32le h.second_bootloader_size) _ 4 _ rfl,
    readU32_skip (u32le h.second_bootloader_addr) _ 4 _ rfl,
    readU32_skip (u32le h.tags_addr) _ 4 _ rfl,
    readU32_skip (u32le h.page_size) _ 4 _ rfl]
  exact readU32_u32le_append _ (by have := h.header_version_le_two; omega) _

/-- The word at offset 0x28 of a serialized `HeaderV3` (plus any payload) is
the recomputed `header_version`. -/
theorem headerV3_readU32_write_40 (h : HeaderV3) (payload : List Nat) :
    readU32 (h.write ++ payload) 40 = h.header_version := by
  unfold HeaderV3.write
  simp only [List.append_assoc]
  rw [(by norm_num : (40 : Nat) = 8 + (4 + (4 + (4 + (4 + (16 + 0)))))),
    readU32_skip magicBoot _ 8 _ rfl,
    readU32_skip (u32le h.kernel_size) _ 4 _ rfl,
    readU32_skip (u32le h.ramdisk_size) _ 4 _ rfl,
    readU32_skip (u32le h.osversionpatch) _ 4 _ rfl,
    readU32_skip (u32le h.header_size) _ 4 _ rfl,
    readU32_skip (List.replicate 16 0) _ 16 _ rfl]
  refine readU32_u32le_append _ ?_ _
  cases hv : h.v4_signature_size <;> norm_num [HeaderV3.header_version, hv]

/-- The facade parse recovers any well-formed serialized facade header, with
any payload appended. -/
theorem Header.parse_write (h : Header) (hwf : h.Wf) (payload : List Nat) :
    Header.parse (h.write ++ payload) = .ok h := by
  cases h with
  | V0 hdr =>
    have hwf' : hdr.Wf := hwf
    have hlen : 0x2c ≤ (hdr.write ++ payload).length := by
      have := headerV0_write_length_ge hdr hwf'
      simp only [List.length_append]
      omega
    have hv40 := headerV0_readU32_write_40 hdr payload
    have hle2 := hdr.header_version_le_two
    dsimp only [Header.write]
    unfold Header.parse
    rw [if_pos hlen, hv40, if_pos hle2, headerV0_read_write hdr hwf' payload]
  | V3 hdr =>
    have hwf' : hdr.Wf := hwf
    have hlen : 0x2c ≤ (hdr.write ++ payload).length := by
      have := headerV3_write_length_ge hdr hwf'
      simp only [List.length_append]
      omega
    have hv40 := headerV3_readU32_write_40 hdr payload
    have hv34 : hdr.header_version = 3 ∨ hdr.header_version = 4 := by
      cases hv : hdr.v4_signature_size <;>
        simp [HeaderV3.header_version, hv]
    dsimp only [Header.write]
    unfold Header.parse
    rw [if_pos hlen, hv40, if_neg (by omega), if_pos hv34,
      headerV3_read_write hdr hwf' payload]

/-! ## Converse round-trip: a parsed header serializes back to its bytes -/

/-- The wire version tag of a trailer variant. -/
def HeaderV0Versioned.tag : HeaderV0Versioned → Nat
  | .V0 => 0
  | .V1 _ _ => 1
  | .V2 _ _ _ _ => 2

/-- `header_version` is the trailer's tag. -/
theorem HeaderV0.header_version_eq_tag (h : HeaderV0) :
    h.header_version = h.versioned.tag := by
  cases hv : h.versioned <;>
    simp [HeaderV0.header_version, HeaderV0Versioned.tag, hv]

/-- A successful trailer read splits the source at the serialized trailer and
pins the version argument to the variant's tag. -/
theorem versionedTrailer_read_ok {hv : Nat} {bs : List Nat}
    {vv : HeaderV0Versioned} {rest : List Nat} (hb : allBytes bs)
    (h : HeaderV0Versioned.read hv bs = .ok (vv, rest)) :
    bs = vv.write ++ rest ∧ hv = vv.tag := by
  unfold HeaderV0Versioned.read at h
  by_cases h0 : hv = 0
  · rw [if_pos h0] at h
    cases h
    exact ⟨by simp [HeaderV0Versioned.write], h0⟩
  rw [if_neg h0] at h
  by_cases h1 : hv = 1
  · rw [if_pos h1] at h
    cases hp1 : parseU32 bs with
    | error e => rw [hp1] at h; exact Except.noConfusion h
    | ok q1 =>
      rw [hp1] at h
      obtain ⟨rds, bs1⟩ := q1
      dsimp only at h
      cases hp2 : parseU64 bs1 with
      | error e => rw [hp2] at h; exact Except.noConfusion h
      | ok q2 =>
        rw [hp2] at h
        obtain ⟨rda, bs2⟩ := q2
        dsimp only at h
        cases hp3 : parseU32 bs2 with
        | error e => rw [hp3] at h; exact Except.noConfusion h
        | ok q3 =>
          rw [hp3] at h
          obtain ⟨hsz, bs3⟩ := q3
          dsimp only at h
          by_cases hs : hsz = 1648
          · rw [if_pos hs] at h
            cases h
            obtain ⟨e1, -, hb1⟩ := parseU32_inv' hb hp1
            obtain ⟨e2, -, hb2⟩ := parseU64_inv' hb1 hp2
            obtain ⟨e3, -, -⟩ := parseU32_inv' hb2 hp3
            subst hs
            refine ⟨?_, h1⟩
            rw [e1, e2, e3]
            unfold HeaderV0Versioned.write
            simp [List.append_assoc]
          · rw [if_neg hs] at h
            exact Except.noConfusion h
  rw [if_neg h1] at h
  by_cases h2 : hv = 2
  · rw [if_pos h2] at h
    cases hp1 : parseU32 bs with
    | error e => rw [hp1] at h; exact Except.noConfusion h
    | ok q1 =>
      rw [hp1] at h
      obtain ⟨rds, bs1⟩ := q1
      dsimp only at h
      cases hp2 : parseU64 bs1 with
      | error e => rw [hp2] at h; exact Except.noConfusion h
      | ok q2 =>
        rw [hp2] at h
        obtain ⟨rda, bs2⟩ := q2
        dsimp only at h
        cases hp3 : parseU32 bs2 with
        | error e => rw [hp3] at h; exact Except.noConfusion h
        | ok q3 =>
          rw [hp3] at h
          obtain ⟨hsz, bs3⟩ := q3
          dsimp only at h
          by_cases hs : hsz = 1660
          · rw [if_pos hs] at h
            cases hp4 : parseU32 bs3 with
            | error e => rw [hp4] at h; exact Except.noConfusion h
            | ok q4 =>
              rw [hp4] at h
              obtain ⟨ds, bs4⟩ := q4
              dsimp only at h
              cases hp5 : parseU64 bs4 with
              | error e => rw [hp5] at h; exact Except.noConfusion h
              | ok q5 =>
                rw [hp5] at h
                obtain ⟨da, bs5⟩ := q5
                dsimp only at h
                cases h
                obtain ⟨e1, -, hb1⟩ := parseU32_inv' hb hp1
                obtain ⟨e2, -, hb2⟩ := parseU64_inv' hb1 hp2
                obtain ⟨e3, -, hb3⟩ := parseU32_inv' hb2 hp3
                obtain ⟨e4, -, hb4⟩ := parseU32_inv' hb3 hp4
                obtain ⟨e5, -, -⟩ := parseU64_inv' hb4 hp5
                subst hs
                refine ⟨?_, h2⟩
                rw [e1, e2, e3, e4, e5]
                unfold HeaderV0Versioned.write
                simp [List.append_assoc]
          · rw [if_neg hs] at h
            exact Except.noConfusion h
  rw [if_neg h2] at h
  exact Except.noConfusion h

/-- A successful `HeaderV0::read` consumed exactly the serialization of the
header it returned: the source is that serialization followed by the rest. -/
theorem headerV0_read_ok {bs : List Nat} {h : HeaderV0} {rest : List Nat}
    (hb : allBytes bs) (hr : HeaderV0.read bs = .ok (h, rest)) :
    bs = h.write ++ rest := by
  unfold HeaderV0.read at hr
  obtain ⟨⟨m, bs0⟩, hp0, hr⟩ := bind_ok_inv hr
  dsimp only at hr
  by_cases hm : m = magicBoot
  case neg => rw [if_neg hm] at hr; exact Except.noConfusion hr
  rw [if_pos hm] at hr
  obtain ⟨⟨ks, bs1⟩, hp1, hr⟩ := bind_ok_inv hr
  dsimp only at hr
  obtain ⟨⟨ka, bs2⟩, hp2, hr⟩ := bind_ok_inv hr
  dsimp only at hr
  obtain ⟨⟨rs, bs3⟩, hp3, hr⟩ := bind_ok_inv hr
  dsimp only at hr
  obtain ⟨⟨ra, bs4⟩, hp4, hr⟩ := bind_ok_inv hr
  dsimp only at hr
  obtain ⟨⟨sbs, bs5⟩, hp5, hr⟩ := bind_ok_inv hr
  dsimp only at hr
  obtain ⟨⟨sba, bs6⟩, hp6, hr⟩ := bind_ok_inv hr
  dsimp only at hr
  obtain ⟨⟨ta, bs7⟩, hp7, hr⟩ := bind_ok_inv hr
  dsimp only at hr
  obtain ⟨⟨ps, bs8⟩, hp8, hr⟩ := bind_ok_inv hr
  dsimp only at hr
  obtain ⟨⟨hv9, bs9⟩, hp9, hr⟩ := bind_ok_inv hr
  dsimp only at hr
  obtain ⟨⟨ovp, bs10⟩, hp10, hr⟩ := bind_ok_inv hr
  dsimp only at hr
  obtain ⟨⟨bn, bs11⟩, hp11, hr⟩ := bind_ok_inv hr
  dsimp only at hr
  obtain ⟨⟨c1, bs12⟩, hp12, hr⟩ := bind_ok_inv hr
  dsimp only at hr
  obtain ⟨⟨hdg, bs13⟩, hp13, hr⟩ := bind_ok_inv hr
  dsimp only at hr
  obtain ⟨⟨c2, bs14⟩, hp14, hr⟩ := bind_ok_inv hr
  dsimp only at hr
  obtain ⟨⟨vv, bs15⟩, hp15, hr⟩ := bind_ok_inv hr
  dsimp only at hr
  cases hr
  obtain ⟨e0, -, -, hbs0⟩ := parseBytes_inv' hb hp0
  obtain ⟨e1, -, hbs1⟩ := parseU32_inv' hbs0 hp1
  obtain ⟨e2, -, hbs2⟩ := parseU32_inv' hbs1 hp2
  obtain ⟨e3, -, hbs3⟩ := parseU32_inv' hbs2 hp3
  obtain ⟨e4, -, hbs4⟩ := parseU32_inv' hbs3 hp4
  obtain ⟨e5, -, hbs5⟩ := parseU32_inv' hbs4 hp5
  obtain ⟨e6, -, hbs6⟩ := parseU32_inv' hbs5 hp6
  obtain ⟨e7, -, hbs7⟩ := parseU32_inv' hbs6 hp7
  obtain ⟨e8, -, hbs8⟩ := parseU32_inv' hbs7 hp8
  obtain ⟨e9, -, hbs9⟩ := parseU32_inv' hbs8 hp9
  obtain ⟨e10, -, hbs10⟩ := parseU32_inv' hbs9 hp10
  obtain ⟨e11, -, -, hbs11⟩ := parseBytes_inv' hbs10 hp11
  obtain ⟨e12, -, -, hbs12⟩ := parseBytes_inv' hbs11 hp12
  obtain ⟨e13, -, -, hbs13⟩ := parseBytes_inv' hbs12 hp13
  obtain ⟨e14, -, -, hbs14⟩ := parseBytes_inv' hbs13 hp14
  obtain ⟨e15, htag⟩ := versionedTrailer_read_ok hbs14 hp15
  subst hm
  rw [e0, e1, e2, e3, e4, e5, e6, e7, e8, e9, e10, e11, e12, e13, e14, e15,
    htag]
  unfold HeaderV0.write
  dsimp only
  rw [HeaderV0.header_version_eq_tag]
  dsimp only
  simp [List.append_assoc]

/-- A successful `HeaderV3::read` consumed the header's serialization, except
that the 16 reserved bytes are read unvalidated and the wire version word is
only constrained by the `header_size` assert: the source splits into the
fixed fields, some 16 reserved bytes, the wire version `hv`, and the rest. -/
theorem headerV3_read_ok {bs : List Nat} {h : HeaderV3} {rest : List Nat}
    (hb : allBytes bs) (hr : HeaderV3.read bs = .ok (h, rest)) :
    ∃ reserved hv, reserved.length = 16 ∧ hv < 2 ^ 32
      ∧ (hv = 4 → ∃ s, h.v4_signature_size = some s)
      ∧ (hv ≠ 4 → h.v4_signature_size = none)
      ∧ bs = magicBoot ++ u32le h.kernel_size ++ u32le h.ramdisk_size
          ++ u32le h.osversionpatch ++ u32le h.header_size ++ reserved
          ++ u32le hv ++ h.cmdline
          ++ (match h.v4_signature_size with
              | some s => u32le s
              | none => []) ++ rest := by
  unfold HeaderV3.read at hr
  obtain ⟨⟨m, bs0⟩, hp0, hr⟩ := bind_ok_inv hr
  dsimp only at hr
  by_cases hm : m = magicBoot
  case neg => rw [if_neg hm] at hr; exact Except.noConfusion hr
  rw [if_pos hm] at hr
  obtain ⟨⟨ks, bs1⟩, hp1, hr⟩ := bind_ok_inv hr
  dsimp only at hr
  obtain ⟨⟨rs, bs2⟩, hp2, hr⟩ := bind_ok_inv hr
  dsimp only at hr
  obtain ⟨⟨ovp, bs3⟩, hp3, hr⟩ := bind_ok_inv hr
  dsimp only at hr
  obtain ⟨⟨hsz, bs4⟩, hp4, hr⟩ := bind_ok_inv hr
  dsimp only at hr
  obtain ⟨⟨rsv, bs5⟩, hp5, hr⟩ := bind_ok_inv hr
  dsimp only at hr
  obtain ⟨⟨hv, bs6⟩, hp6, hr⟩ := bind_ok_inv hr
  dsimp only at hr
  obtain ⟨⟨cm, bs7⟩, hp7, hr⟩ := bind_ok_inv hr
  dsimp only at hr
  by_cases h4 : hv = 4
  · rw [if_pos h4] at hr
    obtain ⟨⟨sig, bs8⟩, hp8, hr⟩ := bind_ok_inv hr
    dsimp only at hr
    by_cases hs : hsz = HeaderV3.header_size ⟨ks, rs, ovp, cm, some sig⟩
    · rw [if_pos hs] at hr
      cases hr
      obtain ⟨e0, -, -, hbs0⟩ := parseBytes_inv' hb hp0
      obtain ⟨e1, -, hbs1⟩ := parseU32_inv' hbs0 hp1
      obtain ⟨e2, -, hbs2⟩ := parseU32_inv' hbs1 hp2
      obtain ⟨e3, -, hbs3⟩ := parseU32_inv' hbs2 hp3
      obtain ⟨e4, -, hbs4⟩ := parseU32_inv' hbs3 hp4
      obtain ⟨e5, hl5, -, hbs5⟩ := parseBytes_inv' hbs4 hp5
      obtain ⟨e6, hvlt, hbs6⟩ := parseU32_inv' hbs5 hp6
      obtain ⟨e7, -, -, hbs7⟩ := parseBytes_inv' hbs6 hp7
      obtain ⟨e8, -, -⟩ := parseU32_inv' hbs7 hp8
      subst hm
      subst hs
      refine ⟨rsv, hv, hl5, hvlt, fun _ => ⟨sig, rfl⟩, fun hne => absurd h4 hne,
        ?_⟩
      rw [e0, e1, e2, e3, e4, e5, e6, e7, e8]
      dsimp only
      simp [List.append_assoc]
    · rw [if_neg hs] at hr
      exact Except.noConfusion hr
  · rw [if_neg h4] at hr
    by_cases hs : hsz = HeaderV3.header_size ⟨ks, rs, ovp, cm, none⟩
    · rw [if_pos hs] at hr
      cases hr
      obtain ⟨e0, -, -, hbs0⟩ := parseBytes_inv' hb hp0
      obtain ⟨e1, -, hbs1⟩ := parseU32_inv' hbs0 hp1
      obtain ⟨e2, -, hbs2⟩ := parseU32_inv' hbs1 hp2
      obtain ⟨e3, -, hbs3⟩ := parseU32_inv' hbs2 hp3
      obtain ⟨e4, -, hbs4⟩ := parseU32_inv' hbs3 hp4
      obtain ⟨e5, hl5, -, hbs5⟩ := parseBytes_inv' hbs4 hp5
      obtain ⟨e6, hvlt, hbs6⟩ := parseU32_inv' hbs5 hp6
      obtain ⟨e7, -, -, hbs7⟩ := parseBytes_inv' hbs6 hp7
      subst hm
      subst hs
      refine ⟨rsv, hv, hl5, hvlt, fun h4' => absurd h4' h4, fun _ => rfl, ?_⟩
      rw [e0, e1, e2, e3, e4, e5, e6, e7]
      dsimp only
      simp [List.append_assoc]
    · rw [if_neg hs] at hr
      exact Except.noConfusion hr

/-- The spec's well-formedness condition on the 16 reserved bytes of a
v3-family source: they are zero-filled (the reader skips them unvalidated).
V0-family sources have no reserved field. -/
def Header.reservedZero : Header → List Nat → Prop
  | .V0 _, _ => True
  | .V3 _, bs => (bs.drop 24).take 16 = List.replicate 16 0

/-- Generic drop-skipping over an exact-length prefix chunk. -/
theorem drop_skip (chunk rest : List Nat) (k i : Nat) (hk : chunk.length = k) :
    (chunk ++ rest).drop (k + i) = rest.drop i := by
  rw [← hk, List.drop_append]

/-- A successful facade parse consumed exactly the serialization of the
returned header, provided the reserved bytes of a v3-family source are zero. -/
theorem Header.parse_ok {bs : List Nat} {hd : Header} (hb : allBytes bs)
    (h : Header.parse bs = .ok hd) (hz : Header.reservedZero hd bs) :
    ∃ payload, bs = hd.write ++ payload := by
  unfold Header.parse at h
  by_cases hlen : 0x2c ≤ bs.length
  case neg => rw [if_neg hlen] at h; exact Except.noConfusion h
  rw [if_pos hlen] at h
  by_cases h2 : readU32 bs 0x28 ≤ 2
  · rw [if_pos h2] at h
    cases hr : HeaderV0.read bs with
    | error e => rw [hr] at h; exact Except.noConfusion h
    | ok p =>
      rw [hr] at h
      obtain ⟨h0, rest⟩ := p
      dsimp only at h
      cases h
      exact ⟨rest, headerV0_read_ok hb hr⟩
  · rw [if_neg h2] at h
    by_cases h34 : readU32 bs 0x28 = 3 ∨ readU32 bs 0x28 = 4
    case neg => rw [if_neg h34] at h; exact Except.noConfusion h
    rw [if_pos h34] at h
    cases hr : HeaderV3.read bs with
    | error e => rw [hr] at h; exact Except.noConfusion h
    | ok p =>
      rw [hr] at h
      obtain ⟨h3, rest⟩ := p
      dsimp only at h
      cases h
      obtain ⟨rsv, hv, hl16, hvlt, hv4some, hv4none, hshape⟩ :=
        headerV3_read_ok hb hr
      have h40 : readU32 bs 40 = hv := by
        rw [hshape]
        simp only [List.append_assoc]
        rw [(by norm_num : (40 : Nat) = 8 + (4 + (4 + (4 + (4 + (16 + 0)))))),
          readU32_skip magicBoot _ 8 _ rfl,
          readU32_skip (u32le h3.kernel_size) _ 4 _ rfl,
          readU32_skip (u32le h3.ramdisk_size) _ 4 _ rfl,
          readU32_skip (u32le h3.osversionpatch) _ 4 _ rfl,
          readU32_skip (u32le h3.header_size) _ 4 _ rfl,
          readU32_skip rsv _ 16 _ hl16]
        exact readU32_u32le_append hv hvlt _
      have hveq : hv = h3.header_version := by
        rcases h34 with h3v | h4v
        · have hv3 : hv = 3 := by rw [← h40]; exact h3v
          have hnone := hv4none (by omega)
          rw [hv3]
          simp [HeaderV3.header_version, hnone]
        · have hv4 : hv = 4 := by rw [← h40]; exact h4v
          obtain ⟨s, hsome⟩ := hv4some hv4
          rw [hv4]
          simp [HeaderV3.header_version, hsome]
      have hrsv : rsv = List.replicate 16 0 := by
        have hz' : (bs.drop 24).take 16 = List.replicate 16 0 := hz
        rw [hshape] at hz'
        simp only [List.append_assoc] at hz'
        rw [(by norm_num : (24 : Nat) = 8 + (4 + (4 + (4 + (4 + 0))))),
          drop_skip magicBoot _ 8 _ rfl,
          drop_skip (u32le h3.kernel_size) _ 4 _ rfl,
          drop_skip (u32le h3.ramdisk_size) _ 4 _ rfl,
          drop_skip (u32le h3.osversionpatch) _ 4 _ rfl,
          drop_skip (u32le h3.header_size) _ 4 _ rfl,
          List.drop_zero, List.take_left' hl16] at hz'
        exact hz'
      refine ⟨rest, ?_⟩
      rw [hshape, hrsv, hveq]
      dsimp only [Header.write]
      unfold HeaderV3.write
      simp [List.append_assoc]

/-! ## Claim C1 (round-trip) -/

/-- C1 as frozen is false for vendor headers: the facade has no vendor
branch, so the bytes produced by serializing a vendor header are rejected by
`Header::parse` instead of being parsed back to the original value. -/
theorem c1_counterexample :
    ∃ e, Header.parse vendor3ex.write = .error e := by
  refine parse_vendor_magic_fails _ ?_
  unfold VendorHeader.write
  simp only [List.append_assoc]
  exact List.take_left' rfl

/-- C1 amended: the facade round-trip holds for the headers the facade can
represent (V0-family and V3-family): writing then parsing returns the
original header for any appended payload, and a successfully parsed byte
source is exactly the serialization of the returned header followed by the
payload, provided the reserved bytes of a v3-family source were zero (they
are skipped on read and written as zeros).  A vendor header round-trips
through the vendor codec's own read, not through `Header::parse`. -/
theorem c1_roundtrip :
    (∀ (h : Header) (payload : List Nat), h.Wf →
      Header.parse (h.write ++ payload) = .ok h)
    ∧ (∀ (bs : List Nat) (hd : Header), allBytes bs →
      Header.parse bs = .ok hd → Header.reservedZero hd bs →
      ∃ payload, bs = hd.write ++ payload)
    ∧ (∀ (v : VendorHeader) (payload : List Nat), v.Wf →
      VendorHeader.read (v.write ++ payload) = .ok (v, payload)) :=
  ⟨fun h payload hwf => Header.parse_write h hwf payload,
   fun _ _ hb h hz => Header.parse_ok hb h hz,
   fun v payload hwf => vendorHeader_read_write v hwf payload⟩

/-- Bytes of an encoded `u32` are byte values. -/
theorem allBytes_u32le (x : Nat) : allBytes (u32le x) := by
  intro b hb
  simp only [u32le, List.mem_cons, List.not_mem_nil, or_false] at hb
  rcases hb with h | h | h | h <;> omega

/-- Bytes of an encoded `u64` are byte values. -/
theorem allBytes_u64le (x : Nat) : allBytes (u64le x) := by
  intro b hb
  simp only [u64le, List.mem_cons, List.not_mem_nil, or_false] at hb
  rcases hb with h | h | h | h | h | h | h | h <;> omega

/-- The boot magic consists of byte values. -/
theorem allBytes_magicBoot : allBytes magicBoot := by
  unfold allBytes
  decide

/-- A serialized trailer consists of byte values. -/
theorem versionedTrailer_write_allBytes (v : HeaderV0Versioned) :
    allBytes v.write := by
  cases v <;> unfold HeaderV0Versioned.write allBytes <;>
    simp only [List.forall_mem_append] <;>
    repeat' constructor
  all_goals
    first
      | exact fun b hb => absurd hb (List.not_mem_nil b)
      | exact allBytes_u32le _
      | exact allBytes_u64le _

/-- A serialized well-formed `HeaderV0` consists of byte values. -/
theorem headerV0_write_allBytes (h : HeaderV0) (hwf : h.Wf) :
    allBytes h.write := by
  obtain ⟨-, -, -, -, -, -, -, -, -, hbn, hc1, hhd, hc2, -⟩ := hwf
  unfold HeaderV0.write allBytes
  simp only [List.forall_mem_append]
  repeat' constructor
  all_goals
    first
      | exact allBytes_magicBoot
      | exact allBytes_u32le _
      | exact hbn.2
      | exact hc1.2
      | exact hhd.2
      | exact hc2.2
      | exact versionedTrailer_write_allBytes _

/-- Witness for C1 at concrete headers: a V1 boot header, its own bytes back
through the converse direction, and a v4 vendor header. -/
theorem c1_roundtrip_witness :
    Header.parse (Header.write (Header.V0 c5Header) ++ [])
      = .ok (Header.V0 c5Header)
    ∧ (∃ payload, Header.write (Header.V0 c5Header)
        = Header.write (Header.V0 c5Header) ++ payload)
    ∧ VendorHeader.read (vendor4ex.write ++ []) = .ok (vendor4ex, []) := by
  have hfwd := c1_roundtrip.1 (Header.V0 c5Header) [] c5Header_wf
  refine ⟨hfwd, ?_, c1_roundtrip.2.2 vendor4ex [] vendor4ex_wf⟩
  have hparse : Header.parse (Header.write (Header.V0 c5Header))
      = .ok (Header.V0 c5Header) := by
    rw [← List.append_nil (Header.write (Header.V0 c5Header))]
    exact hfwd
  exact c1_roundtrip.2.1 (Header.write (Header.V0 c5Header))
    (Header.V0 c5Header)
    (headerV0_write_allBytes c5Header c5Header_wf)
    hparse trivial
